import Mathlib

/-!
Verification of the rustic scene-script interpreter and software rasterizer.

The Rust sources are shallowly embedded in Lean.  `f32` arithmetic is
idealized as exact rational arithmetic (`ℚ`); square roots (used only by
vector normalization) are modelled by `ratSqrt`, which is exact on
perfect-square rationals and is only ever relied upon at such inputs.
Rational division by zero follows Lean's `0` convention; every place where
the Rust code can divide by zero (producing `inf`/`NaN`) is noted at the
theorem that exercises it.

Modules of the repository that are referenced but whose sources are absent
(matrix.rs, vector.rs, coordinate_stack.rs, edge_list.rs, scan_line.rs,
picture.rs) are modelled from the specification; each such definition
carries a doc comment starting with `Modelled from the spec:`.  Rasterization
is modelled as a trace of draw events (the framebuffer itself is external).
-/

namespace Rustic

/-- Truncation toward zero, the semantics of Rust `as isize` on a finite float. -/
def ratTrunc (q : ℚ) : ℤ :=
  q.num / (q.den : ℤ)

/-- Rust `f32::round`: round half away from zero. -/
def roundAway (q : ℚ) : ℤ :=
  if 0 ≤ q then ⌊q + 1/2⌋ else -⌊-q + 1/2⌋

/-- Idealized square root on ℚ, exact on perfect squares of rationals (the
junk value elsewhere — the rational integer-square-root approximation — is
never relied on: theorems that depend on normalization are stated only at
inputs whose squared magnitude is a perfect rational square, where `f32::sqrt`
is modelled exactly up to float rounding). -/
def ratSqrt (q : ℚ) : ℚ :=
  Rat.sqrt q

/-- 3-component vector (`[f32; 3]`). -/
structure Vec3 where
  x : ℚ
  y : ℚ
  z : ℚ
deriving DecidableEq, Repr

/-- Homogeneous point (`[f32; 4]`). -/
structure Point4 where
  x : ℚ
  y : ℚ
  z : ℚ
  w : ℚ
deriving DecidableEq, Repr

/-- 4×4 matrix as four rows, mirroring `type Matrix = Vec<[f32; 4]>` used for
transforms (always exactly four rows there). -/
structure M4 where
  r0 : Point4
  r1 : Point4
  r2 : Point4
  r3 : Point4
deriving DecidableEq, Repr

/-- Modelled from the spec: vector addition (vector.rs is external). -/
def add_vectors (a b : Vec3) : Vec3 :=
  ⟨a.x + b.x, a.y + b.y, a.z + b.z⟩

/-- Modelled from the spec: vector subtraction (vector.rs is external). -/
def subtract_vectors (a b : Vec3) : Vec3 :=
  ⟨a.x - b.x, a.y - b.y, a.z - b.z⟩

/-- Modelled from the spec: dot product (vector.rs is external). -/
def dot_product (a b : Vec3) : ℚ :=
  a.x * b.x + a.y * b.y + a.z * b.z

/-- Modelled from the spec: cross product (vector.rs is external; the same
component formula appears verbatim in a comment in polygon_list.rs). -/
def cross_product (a b : Vec3) : Vec3 :=
  ⟨a.y * b.z - a.z * b.y, a.z * b.x - a.x * b.z, a.x * b.y - a.y * b.x⟩

/-- Squared magnitude of a vector. -/
def normSq (v : Vec3) : ℚ :=
  v.x * v.x + v.y * v.y + v.z * v.z

/-- Modelled from the spec: vector normalization (vector.rs is external):
divide by the magnitude.  See `ratSqrt` for the square-root idealization. -/
def normalize_vector (v : Vec3) : Vec3 :=
  let m := ratSqrt (normSq v)
  ⟨v.x / m, v.y / m, v.z / m⟩

/-- Modelled from the spec: point transform (matrix.rs is external).  Points
are row vectors multiplied on the right by the matrix, matching the camera
matrix layout built in run_script.rs (basis vectors in the first three rows,
translation in the fourth row). -/
def transformPoint (A : M4) (p : Point4) : Point4 :=
  ⟨p.x * A.r0.x + p.y * A.r1.x + p.z * A.r2.x + p.w * A.r3.x,
   p.x * A.r0.y + p.y * A.r1.y + p.z * A.r2.y + p.w * A.r3.y,
   p.x * A.r0.z + p.y * A.r1.z + p.z * A.r2.z + p.w * A.r3.z,
   p.x * A.r0.w + p.y * A.r1.w + p.z * A.r2.w + p.w * A.r3.w⟩

/-- Modelled from the spec: matrix composition (matrix.rs is external); with
row-vector points, each row of the left factor is transformed by the right
factor. -/
def matMul (A B : M4) : M4 :=
  ⟨transformPoint B A.r0, transformPoint B A.r1, transformPoint B A.r2, transformPoint B A.r3⟩

/-- Modelled from the spec: identity matrix (matrix.rs is external). -/
def identityM : M4 :=
  ⟨⟨1, 0, 0, 0⟩, ⟨0, 1, 0, 0⟩, ⟨0, 0, 1, 0⟩, ⟨0, 0, 0, 1⟩⟩

/-- Modelled from the spec: translation matrix (matrix.rs is external);
translation components in the fourth row, per the row-vector convention. -/
def translationM (a b c : ℚ) : M4 :=
  ⟨⟨1, 0, 0, 0⟩, ⟨0, 1, 0, 0⟩, ⟨0, 0, 1, 0⟩, ⟨a, b, c, 1⟩⟩

/-- Modelled from the spec: dilation (scale) matrix (matrix.rs is external). -/
def dilationM (a b c : ℚ) : M4 :=
  ⟨⟨a, 0, 0, 0⟩, ⟨0, b, 0, 0⟩, ⟨0, 0, c, 0⟩, ⟨0, 0, 0, 1⟩⟩

/-- `constants.rs`: `pub const ENABLE_BACK_FACE_CULLING: bool = true;` -/
def ENABLE_BACK_FACE_CULLING : Bool := true

/-- `constants.rs`: `pub const SPECULAR_EXPONENT: f32 = 5.0;` (a whole-number
exponent, so `powf` is an exact power). -/
def SPECULAR_EXPONENT : ℕ := 5

/-- `constants.rs`: `DEFAULT_FOREGROUND_COLOR = BLUE`. -/
def DEFAULT_FOREGROUND_COLOR : ℕ × ℕ × ℕ := (0, 0, 255)

/-- `constants.rs`: the 12-triangle cube topology. -/
def CUBE : List (ℕ × ℕ × ℕ) :=
  [(0, 2, 1), (0, 3, 2), (4, 1, 5), (4, 0, 1), (7, 0, 4), (7, 3, 0),
   (6, 3, 7), (6, 2, 3), (5, 2, 6), (5, 1, 2), (7, 5, 6), (7, 4, 5)]

/-- `constants.rs`: the five shading modes. -/
inductive ShadingMode where
  | wireframe
  | flatRandom
  | flat
  | gouraud
  | phong
deriving DecidableEq, Repr

/-- Rotation axis (tokens.rs / parser.rs `Rotation`). -/
inductive Axis where
  | x
  | y
  | z
deriving DecidableEq, Repr

/-- `parser.rs` `Command`, with the field shapes actually consumed by
run_script.rs and animation.rs (the executor is the authority for the fields
it destructures). -/
inductive Command where
  | display
  | save (file_path : String)
  | clear
  | push
  | pop
  | move (a b c : ℚ) (knob : Option String)
  | scale (a b c : ℚ) (knob : Option String)
  | rotate (axis : Axis) (degrees : ℚ) (knob : Option String)
  | line (x0 y0 z0 x1 y1 z1 : ℚ)
  | circle (x y z r : ℚ)
  | hermite (x0 y0 x1 y1 rx0 ry0 rx1 ry1 : ℚ)
  | bezier (x0 y0 x1 y1 x2 y2 x3 y3 : ℚ)
  | polygon (constants : Option String) (x0 y0 z0 x1 y1 z1 x2 y2 z2 : ℚ)
      (coord_system : Option String)
  | box (constants : Option String) (x y z w h d : ℚ) (coord_system : Option String)
  | sphere (constants : Option String) (x y z r : ℚ) (coord_system : Option String)
  | torus (constants : Option String) (x y z r0 r1 : ℚ) (coord_system : Option String)
  | cylinder (constants : Option String) (x y z r h : ℚ) (coord_system : Option String)
  | cone (constants : Option String) (x y z r h : ℚ) (coord_system : Option String)
  | mesh (constants : Option String) (file_path : String) (coord_system : Option String)
  | clearLights
  | addLight (r g b x y z : ℚ)
  | setAmbient (r g b : ℚ)
  | defineConstants (name : String) (kar kdr ksr kag kdg ksg kab kdb ksb : ℚ)
  | setShading (shading_mode : ShadingMode)
  | setCamera (eye_x eye_y eye_z aim_x aim_y aim_z : ℚ)
  | setBaseName (name : String)
  | setKnob (name : String) (value : ℚ)
  | saveKnobList (name : String)
  | tween (start_frame end_frame : ℕ) (knoblist0 knoblist1 : String)
      (easing : Option String)
  | setFrames (num_frames : ℕ)
  | varyKnob (knob : String) (start_frame end_frame : ℕ) (start_val end_val : ℚ)
      (easing : Option String)
  | setAllKnobs (value : ℚ)
  | saveCoordSystem (name : String)
  | createComposite (name : String) (commands : List Command)
  | runComposite (name : String)
  | generateRayFiles
  | setFocalLength (length : ℚ)

/-- Association-list lookup, modelling `HashMap::get`. -/
def lookupA {κ α : Type} [DecidableEq κ] (l : List (κ × α)) (k : κ) : Option α :=
  match l with
  | [] => none
  | (k0, v) :: rest => if k0 = k then some v else lookupA rest k

/-- Drop every binding of a key. -/
def removeKey {κ α : Type} [DecidableEq κ] (k : κ) : List (κ × α) → List (κ × α)
  | [] => []
  | kv :: rest => if kv.1 = k then removeKey k rest else kv :: removeKey k rest

/-- Association-list insert, modelling `HashMap::insert` (overwrite). -/
def insertA {κ α : Type} [DecidableEq κ] (k : κ) (v : α) (l : List (κ × α)) : List (κ × α) :=
  (k, v) :: removeKey k l

/-- Replace the element at an index, leaving the list unchanged when the index
is out of range (`frame_knobs[frame].insert` with the in-range invariant). -/
def modifyNth {α : Type} (f : α → α) : List α → ℕ → List α
  | [], _ => []
  | a :: rest, 0 => f a :: rest
  | a :: rest, n + 1 => a :: modifyNth f rest n

/-- animation.rs `CubicBezierEasing`: cubic coefficients for x(t) and y(t),
highest degree first (`plug` evaluates by Horner from c[0]). -/
structure CubicBezierEasing where
  cx : Point4
  cy : Point4
deriving DecidableEq, Repr

/-- `constants.rs` `BEZIER` basis matrix. -/
def BEZIERM : M4 :=
  ⟨⟨-1, 3, -3, 1⟩, ⟨3, -6, 3, 0⟩, ⟨-3, 3, 0, 0⟩, ⟨1, 0, 0, 0⟩⟩

/-- animation.rs `CubicBezierEasing::new`: multiply the control rows
`[0, x1, x2, 1]` and `[0, y1, y2, 1]` by the Bezier basis (the basis matrix
is symmetric, so the two possible orientations of the external
`matrix::multiply` agree here). -/
def CubicBezierEasing.new (x1 y1 x2 y2 : ℚ) : CubicBezierEasing :=
  ⟨transformPoint BEZIERM ⟨0, x1, x2, 1⟩, transformPoint BEZIERM ⟨0, y1, y2, 1⟩⟩

/-- animation.rs `CubicBezierEasing::plug`: Horner evaluation of the cubic. -/
def CubicBezierEasing.plug (c : Point4) (t : ℚ) : ℚ :=
  ((c.x * t + c.y) * t + c.z) * t + c.w

/-- One Newton iteration of `eval`'s solver (note: if the derivative is zero,
Rust produces a non-finite value where ℚ division yields 0; no claim depends
on the easing path). -/
def CubicBezierEasing.newtonStep (e : CubicBezierEasing) (x t : ℚ) : ℚ :=
  let x_t := CubicBezierEasing.plug e.cx t
  let dx := (3 * e.cx.x * t + 2 * e.cx.y) * t + e.cx.z
  min (max (t - (x_t - x) / dx) 0) 1

/-- animation.rs `CubicBezierEasing::eval`: clamp, 5 Newton iterations, then
evaluate the y cubic. -/
def CubicBezierEasing.eval (e : CubicBezierEasing) (x : ℚ) : ℚ :=
  let t0 := min (max x 0) 1
  let t := CubicBezierEasing.newtonStep e x
    (CubicBezierEasing.newtonStep e x
      (CubicBezierEasing.newtonStep e x
        (CubicBezierEasing.newtonStep e x
          (CubicBezierEasing.newtonStep e x t0))))
  CubicBezierEasing.plug e.cy t

/-- animation.rs `EASING_FUNCTIONS`: the four built-in easing curves. -/
def easingLookup (name : String) : Option CubicBezierEasing :=
  if name = "easeInCubic" then some (CubicBezierEasing.new (33/100) 0 (68/100) 1)
  else if name = "easeOutCubic" then some (CubicBezierEasing.new (33/100) 1 (68/100) 1)
  else if name = "easeInExpo" then some (CubicBezierEasing.new (7/10) 0 (84/100) 0)
  else if name = "easeOutExpo" then some (CubicBezierEasing.new (16/100) 1 (3/10) 1)
  else none

/-- The loop body of animation.rs `first_pass`: state is
(frames, basename, contains_frames, contains_vary, contains_basename,
contains_tween). -/
def first_pass_step (st : ℕ × String × Bool × Bool × Bool × Bool) (c : Command) :
    ℕ × String × Bool × Bool × Bool × Bool :=
  match st, c with
  | (frames, _, cFrames, cVary, _, cTween), .setBaseName name =>
    (frames, name, cFrames, cVary, true, cTween)
  | (frames, basename, cFrames, cVary, cBase, _), .tween _ _ _ _ _ =>
    (frames, basename, cFrames, cVary, cBase, true)
  | (_, basename, _, cVary, cBase, cTween), .setFrames n =>
    (n, basename, true, cVary, cBase, cTween)
  | (frames, basename, cFrames, _, cBase, cTween), .varyKnob _ _ _ _ _ _ =>
    (frames, basename, cFrames, true, cBase, cTween)
  | st, _ => st

/-- animation.rs `first_pass`: scan for animation indicators, the frame count
and the basename; fail when an indicator appears without a frame count;
default the basename to "frame" when only the frame count was set. -/
def first_pass (commands : List Command) : Except String (ℕ × String) :=
  match commands.foldl first_pass_step (0, "", false, false, false, false) with
  | (frames, basename, cFrames, cVary, cBase, cTween) =>
    if (cVary || cTween || cBase) && !cFrames then
      .error "Animation was detected but the number of frames was not set."
    else if cFrames && !cBase then
      .ok (frames, "frame")
    else
      .ok (frames, basename)

/-- Knob map for one frame (`HashMap<String, f32>`). -/
abbrev KnobMap : Type := List (String × ℚ)

/-- The inclusive frame range `start_frame..=end_frame` of a vary/tween loop. -/
def frameRange (s e : ℕ) : List ℕ :=
  (List.range (e + 1 - s)).map (fun i => s + i)

/-- The interpolated value written at frame `f` by a vary/tween loop body:
`start_val + delta * (f - start_frame)`, then optionally eased. -/
def rampValue (easing : Option CubicBezierEasing) (s : ℕ) (a delta : ℚ) (f : ℕ) : ℚ :=
  let x := a + delta * ((f : ℚ) - (s : ℚ))
  match easing with
  | none => x
  | some e => CubicBezierEasing.eval e x

/-- Write the interpolated value for `knob` into every frame map of the range. -/
def applyRamp (knob : String) (easing : Option CubicBezierEasing) (s : ℕ) (a delta : ℚ)
    (frames : List ℕ) (maps : List KnobMap) : List KnobMap :=
  frames.foldl (fun ms f => modifyNth (insertA knob (rampValue easing s a delta f)) ms f) maps

/-- The command loop of animation.rs `second_pass` (top level for proofs; the
`frames` bound is the first parameter).  The Rust loop errors out at the first
frame when an easing name is unknown and the partial `frame_knobs` is
discarded by the caller, so checking the easing name before the range loop is
observationally identical.  `Tween`'s `HashSet` union is modelled as the keys
of the first list followed by the keys of the second list that are not in the
first (each knob writes only its own key, so the iteration order is
irrelevant to the result). -/
def second_pass_go (frames : ℕ) :
    List Command → List KnobMap → List (String × KnobMap) → Except String (List KnobMap)
  | [], frame_knobs, _ => .ok frame_knobs
  | c :: rest, frame_knobs, saved_knobs =>
    match c with
    | .varyKnob knob s e a b easing =>
      if s ≥ frames ∨ e ≥ frames then
        .error "Vary command has frames outside range."
      else if s > e then
        .error "Vary command has start_frame greater than end_frame."
      else
        let delta := (b - a) / (((e : ℚ) - (s : ℚ)))
        match easing with
        | none =>
          second_pass_go frames rest
            (applyRamp knob none s a delta (frameRange s e) frame_knobs) saved_knobs
        | some name =>
          match easingLookup name with
          | some ez =>
            second_pass_go frames rest
              (applyRamp knob (some ez) s a delta (frameRange s e) frame_knobs) saved_knobs
          | none => .error "Easing function not recognized."
    | .saveKnobList name =>
      match frame_knobs with
      | [] => second_pass_go frames rest frame_knobs saved_knobs
      | m0 :: _ => second_pass_go frames rest frame_knobs (insertA name m0 saved_knobs)
    | .tween s e list0 list1 easing =>
      if s ≥ frames ∨ e ≥ frames then
        .error "Tween command has frames outside range."
      else if s > e then
        .error "Tween command has start_frame greater than end_frame."
      else
        match lookupA saved_knobs list0 with
        | none => .error "Knoblist not found."
        | some knobs0 =>
          match lookupA saved_knobs list1 with
          | none => .error "Knoblist not found."
          | some knobs1 =>
            let keys0 := knobs0.map (fun kv => kv.1)
            let keys1 := (knobs1.map (fun kv => kv.1)).filter (fun k => ¬ keys0.contains k)
            let all_knobs := keys0 ++ keys1
            match easing with
            | none =>
              second_pass_go frames rest
                (all_knobs.foldl (fun ms knob =>
                  let a := (lookupA knobs0 knob).getD 0
                  let b := (lookupA knobs1 knob).getD 0
                  let delta := (b - a) / (((e : ℚ) - (s : ℚ)))
                  applyRamp knob none s a delta (frameRange s e) ms) frame_knobs)
                saved_knobs
            | some name =>
              match easingLookup name with
              | some ez =>
                second_pass_go frames rest
                  (all_knobs.foldl (fun ms knob =>
                    let a := (lookupA knobs0 knob).getD 0
                    let b := (lookupA knobs1 knob).getD 0
                    let delta := (b - a) / (((e : ℚ) - (s : ℚ)))
                    applyRamp knob (some ez) s a delta (frameRange s e) ms) frame_knobs)
                  saved_knobs
              | none => .error "Easing function not recognized."
    | _ => second_pass_go frames rest frame_knobs saved_knobs

/-- animation.rs `second_pass`: allocate one empty knob map per frame and
resolve every vary/tween directive into it. -/
def second_pass (commands : List Command) (frames : ℕ) : Except String (List KnobMap) :=
  second_pass_go frames commands (List.replicate frames []) []

/-- lighting.rs `LightingConfig`: ambient color and point lights, each a
(color, normalized direction) pair. -/
structure LightingConfig where
  ambient_light_color : Vec3
  point_lights : List (Vec3 × Vec3)
deriving DecidableEq, Repr

/-- lighting.rs `ReflectionConstants`. -/
structure ReflectionConstants where
  ambient : Vec3
  diffuse : Vec3
  specular : Vec3
deriving DecidableEq, Repr

/-- `constants.rs` `DEFAULT_REFLECTION_CONSTANTS`. -/
def DEFAULT_REFLECTION_CONSTANTS : ReflectionConstants :=
  ⟨⟨1/5, 1/5, 1/5⟩, ⟨1/2, 1/2, 1/2⟩, ⟨1/2, 1/2, 1/2⟩⟩

/-- lighting.rs `get_ambient`: per-channel product. -/
def get_ambient (ambient_light_color ambient_constant : Vec3) : Vec3 :=
  ⟨ambient_light_color.x * ambient_constant.x,
   ambient_light_color.y * ambient_constant.y,
   ambient_light_color.z * ambient_constant.z⟩

/-- The `for [light_color, light_vector] in point_lights` accumulation loops of
lighting.rs: componentwise sum of a per-light term. -/
def accumLights (point_lights : List (Vec3 × Vec3)) (term : Vec3 × Vec3 → Vec3) : Vec3 :=
  point_lights.foldl (fun acc l => add_vectors acc (term l)) ⟨0, 0, 0⟩

/-- lighting.rs `get_diffuse`. -/
def get_diffuse (normal : Vec3) (point_lights : List (Vec3 × Vec3)) (diffuse_constant : Vec3) :
    Vec3 :=
  accumLights point_lights (fun l =>
    let n_dot_l := max 0 (dot_product normal l.2)
    ⟨l.1.x * diffuse_constant.x * n_dot_l,
     l.1.y * diffuse_constant.y * n_dot_l,
     l.1.z * diffuse_constant.z * n_dot_l⟩)

/-- lighting.rs `get_specular`: note that `n_dot_l` is clamped to 0 before it
enters the reflected-vector z component. -/
def get_specular (normal : Vec3) (point_lights : List (Vec3 × Vec3)) (specular_constant : Vec3) :
    Vec3 :=
  accumLights point_lights (fun l =>
    let n_dot_l := max 0 (dot_product normal l.2)
    let r_z := (max 0 (2 * normal.z * n_dot_l - l.2.z)) ^ SPECULAR_EXPONENT
    ⟨l.1.x * specular_constant.x * r_z,
     l.1.y * specular_constant.y * r_z,
     l.1.z * specular_constant.z * r_z⟩)

/-- lighting.rs `clamp_color`: clamp to [0, 255] then `as usize`
(truncation; on the clamped nonnegative value this is the floor). -/
def clamp_color (v : Vec3) : ℕ × ℕ × ℕ :=
  ((ratTrunc (min (max v.x 0) 255)).toNat,
   (ratTrunc (min (max v.y 0) 255)).toNat,
   (ratTrunc (min (max v.z 0) 255)).toNat)

/-- lighting.rs `get_illumination`: normalize the normal, sum the three
components, clamp. -/
def get_illumination (normal : Vec3) (config : LightingConfig) (constants : ReflectionConstants) :
    ℕ × ℕ × ℕ :=
  let n := normalize_vector normal
  let ambient := get_ambient config.ambient_light_color constants.ambient
  let diffuse := get_diffuse n config.point_lights constants.diffuse
  let specular := get_specular n config.point_lights constants.specular
  clamp_color
    ⟨ambient.x + diffuse.x + specular.x,
     ambient.y + diffuse.y + specular.y,
     ambient.z + diffuse.z + specular.z⟩

/-- A triangle of the polygon buffer. -/
abbrev Tri : Type := Point4 × Point4 × Point4

/-- The polygon buffer read three points at a time (`m.chunks(3)`; the buffer
length is a multiple of 3 by construction). -/
def chunks3 : List Point4 → List Tri
  | p0 :: p1 :: p2 :: rest => (p0, p1, p2) :: chunks3 rest
  | _ => []

/-- polygon_list.rs `vector_to_key`: round each coordinate to an integer
welding key. -/
def vector_to_key (p : Point4) : ℤ × ℤ × ℤ :=
  (roundAway p.x, roundAway p.y, roundAway p.z)

/-- The two edge vectors a = p1 − p0, b = p2 − p0 and their cross product,
computed per triangle in render_polygons (the inline component formula of
polygon_list.rs is exactly `cross_product`). -/
def faceNormal (t : Tri) : Vec3 :=
  cross_product
    ⟨t.2.1.x - t.1.x, t.2.1.y - t.1.y, t.2.1.z - t.1.z⟩
    ⟨t.2.2.x - t.1.x, t.2.2.y - t.1.y, t.2.2.z - t.1.z⟩

/-- `vertex_normals.entry(key).or_insert([0,0,0])` followed by adding `n`. -/
def entryAdd (k : ℤ × ℤ × ℤ) (n : Vec3) : List ((ℤ × ℤ × ℤ) × Vec3) →
    List ((ℤ × ℤ × ℤ) × Vec3)
  | [] => [(k, n)]
  | (k0, v) :: rest =>
    if k0 = k then (k0, add_vectors v n) :: rest else (k0, v) :: entryAdd k n rest

/-- The vertex-normal pre-pass of polygon_list.rs `render_polygons` as
written: for each triangle, add its face normal into the entries of its three
vertex keys, then normalize every value of the map — the normalization loop
is nested inside the per-triangle loop in the source. -/
def vertex_normals (m : List Point4) : List ((ℤ × ℤ × ℤ) × Vec3) :=
  (chunks3 m).foldl
    (fun map t =>
      let n := faceNormal t
      let map := entryAdd (vector_to_key t.2.2) n
        (entryAdd (vector_to_key t.2.1) n (entryAdd (vector_to_key t.1) n map))
      map.map (fun kv => (kv.1, normalize_vector kv.2)))
    []

/-- The pre-pass is only run for Gouraud and Phong shading. -/
def prePass (shading : ShadingMode) (m : List Point4) : List ((ℤ × ℤ × ℤ) × Vec3) :=
  match shading with
  | .gouraud => vertex_normals m
  | .phong => vertex_normals m
  | _ => []

/-- texture.rs `MTL`. -/
structure MTLq where
  kd : ℚ × ℚ × ℚ
  data : List ℕ
  width : ℤ
  height : ℤ
deriving DecidableEq, Repr

/-- Texture coordinates of a triangle (`[[f32; 2]; 3]`). -/
abbrev UV3 : Type := (ℚ × ℚ) × (ℚ × ℚ) × (ℚ × ℚ)

/-- Modelled from the spec: the framebuffer and scan-line rasterizers are
external; a rendering run is modelled as the trace of draw calls issued to
them.  Each constructor records one call with the exact arguments the source
passes. -/
inductive Event where
  | drawLine (x0 y0 : ℤ) (z0 : ℚ) (x1 y1 : ℤ) (z1 : ℚ) (color : ℕ × ℕ × ℕ)
  | edgeLine (p0 p1 : Point4) (color : ℕ × ℕ × ℕ)
  | fillFlat (t : Tri) (color : ℕ × ℕ × ℕ)
  | fillFlatRandom (t : Tri)
  | fillGouraud (t : Tri) (n0 n1 n2 : Option Vec3) (config : LightingConfig)
      (constants : ReflectionConstants)
  | fillPhong (t : Tri) (n0 n1 n2 : Option Vec3) (config : LightingConfig)
      (constants : ReflectionConstants)
  | fillTextured (t : Tri) (uv : UV3) (mtl : MTLq) (light : Vec3)
  | displayed
  | savedFile (path : String)
  | clearedPicture
  | frameResetMark
deriving DecidableEq, Repr

/-- The per-triangle body of render_polygons: compute the face normal, apply
the backface-culling test, and dispatch on the shading mode.  `flatRandom`'s
color comes from an external RNG and is not recorded.  The wireframe arm
passes coordinates through `as isize` truncation exactly as the source
does. -/
def triangleEvents (cull : Bool) (shading : ShadingMode)
    (vns : List ((ℤ × ℤ × ℤ) × Vec3)) (color : ℕ × ℕ × ℕ) (config : LightingConfig)
    (constants : ReflectionConstants) (t : Tri) : List Event :=
  let normal := faceNormal t
  if normal.z > 0 ∧ cull = true then
    match shading with
    | .wireframe =>
      [.drawLine (ratTrunc t.1.x) (ratTrunc t.1.y) t.1.z
         (ratTrunc t.2.1.x) (ratTrunc t.2.1.y) t.2.1.z color,
       .drawLine (ratTrunc t.2.2.x) (ratTrunc t.2.2.y) t.2.2.z
         (ratTrunc t.2.1.x) (ratTrunc t.2.1.y) t.2.1.z color,
       .drawLine (ratTrunc t.1.x) (ratTrunc t.1.y) t.1.z
         (ratTrunc t.2.2.x) (ratTrunc t.2.2.y) t.2.2.z color]
    | .flatRandom => [.fillFlatRandom t]
    | .flat => [.fillFlat t (get_illumination (normalize_vector normal) config constants)]
    | .gouraud =>
      [.fillGouraud t (lookupA vns (vector_to_key t.1)) (lookupA vns (vector_to_key t.2.1))
         (lookupA vns (vector_to_key t.2.2)) config constants]
    | .phong =>
      [.fillPhong t (lookupA vns (vector_to_key t.1)) (lookupA vns (vector_to_key t.2.1))
         (lookupA vns (vector_to_key t.2.2)) config constants]
  else []

/-- polygon_list.rs `render_polygons`: the vertex-normal pre-pass (Gouraud and
Phong only) followed by the per-triangle loop. -/
def render_polygons (m : List Point4) (color : ℕ × ℕ × ℕ) (shading : ShadingMode)
    (config : LightingConfig) (constants : ReflectionConstants) : List Event :=
  let vns := prePass shading m
  (chunks3 m).foldl
    (fun acc t => acc ++ triangleEvents ENABLE_BACK_FACE_CULLING shading vns color config constants t)
    []

/-- run_script.rs `Symbol`. -/
inductive Symbol where
  | constants (c : ReflectionConstants)
  | knob (v : ℚ)
  | coordSystem (m : M4)
  | compositeCommand (commands : List Command)

/-- run_script.rs `CachedMesh`. -/
inductive CachedMesh where
  | noTexture (m : List Point4)
  | texture (m : List Point4) (info : List (String × UV3)) (mtls : List (String × MTLq))

/-- What one external `handle_mesh` call produces: the appended geometry and,
for a textured mesh, the per-triangle UV/material bindings and the material
table. -/
structure MeshData where
  polys : List Point4
  texinfo : Option (List (String × UV3) × List (String × MTLq))

/-- The external collaborators the executor calls into: the trigonometric
geometry builders (edge_list.rs and the parametric solids sample sin/cos, not
representable exactly in ℚ), the rotation matrix (same reason), and the mesh
loader (file system).  The loader is a pure function of the path: the file
does not change during a run.  Each field returns exactly the points the
corresponding builder appends. -/
structure ExternalFns where
  rotationM : Axis → ℚ → M4
  circlePoints : ℚ → ℚ → ℚ → ℚ → List Point4
  hermitePoints : ℚ → ℚ → ℚ → ℚ → ℚ → ℚ → ℚ → ℚ → List Point4
  bezierPoints : ℚ → ℚ → ℚ → ℚ → ℚ → ℚ → ℚ → ℚ → List Point4
  spherePoints : ℚ → ℚ → ℚ → ℚ → List Point4
  torusPoints : ℚ → ℚ → ℚ → ℚ → ℚ → List Point4
  cylinderPoints : ℚ → ℚ → ℚ → ℚ → ℚ → List Point4
  conePoints : ℚ → ℚ → ℚ → ℚ → ℚ → List Point4
  meshOracle : String → Except String MeshData

/-- How a run stops early: a propagated `Err` (`?`), a Rust panic, or the
model's recursion fuel for nested composite commands running out. -/
inductive Err where
  | outOfFuel
  | meshErr (msg : String)
  | compositeNotFound (name : String)
  | panicSymbolNotFound (name : String)
  | panicSymbolKind (name : String)
  | panicSliceShort
  | panicMtlMissing (name : String)
  | panicLightIndex
  | animationErr (msg : String)
deriving DecidableEq, Repr

/-- run_script.rs `ScriptContext`.  The framebuffer is modelled by the
append-only `events` trace; `mesh_loads` records every call to the external
mesh loader (the load-count instrumentation point of the spec, §8). -/
structure Ctx where
  events : List Event
  edges : List Point4
  polygons : List Point4
  coordinate_stack : List M4
  shading_mode : ShadingMode
  lighting_config : LightingConfig
  reflection_constants : ReflectionConstants
  camera_matrix : M4
  symbols : List (String × Symbol)
  mesh_cache : List (String × CachedMesh)
  mesh_loads : List String

/-- Modelled from the spec: coordinate-stack `push` duplicates the top
(coordinate_stack.rs is external; §4.2). -/
def stackPush : List M4 → List M4
  | t :: r => t :: t :: r
  | [] => []

/-- Modelled from the spec: `pop` discards the top but never removes the base
element (§4.2). -/
def stackPop : List M4 → List M4
  | t :: r => if r = [] then [t] else r
  | [] => []

/-- Modelled from the spec: `peek` reads the top (§4.2); the stack is never
empty. -/
def stackPeek (s : List M4) : M4 :=
  s.headD identityM

/-- Modelled from the spec: `apply_transformation` right-multiplies the top
by the new matrix (§4.2). -/
def stackApply (M : M4) : List M4 → List M4
  | t :: r => matMul t M :: r
  | [] => []

/-- `ScriptContext::new`.  The default light direction (0.5, 0.75, 1.0) has an
irrational magnitude, so its modelled normalization is the `ratSqrt` junk
value; no claim depends on it. -/
def initial_context : Ctx :=
  { events := []
    edges := []
    polygons := []
    coordinate_stack := [identityM]
    shading_mode := .flat
    lighting_config :=
      ⟨⟨50, 50, 50⟩, [(⟨255, 255, 255⟩, normalize_vector ⟨1/2, 3/4, 1⟩)]⟩
    reflection_constants := DEFAULT_REFLECTION_CONSTANTS
    camera_matrix := identityM
    symbols := []
    mesh_cache := []
    mesh_loads := [] }

/-- `ScriptContext::frame_reset`: fresh picture, empty buffers, reset stack;
symbol table and mesh cache are kept. -/
def frame_reset (ctx : Ctx) : Ctx :=
  { ctx with
    events := ctx.events ++ [.frameResetMark]
    edges := []
    polygons := []
    coordinate_stack := [identityM] }

/-- `ScriptContext::get_knob_value`: resolve an optional knob name, defaulting
to 1.0 when absent or not bound to a knob. -/
def get_knob_value (ctx : Ctx) (knob_name : Option String) : ℚ :=
  match knob_name with
  | some name =>
    match lookupA ctx.symbols name with
    | some (.knob v) => v
    | _ => 1
  | none => 1

/-- `ScriptContext::set_knob`. -/
def set_knob (name : String) (value : ℚ) (ctx : Ctx) : Ctx :=
  { ctx with symbols := insertA name (.knob value) ctx.symbols }

/-- `ScriptContext::set_all_knobs`: overwrite the value of every knob symbol. -/
def set_all_knobs (value : ℚ) (ctx : Ctx) : Ctx :=
  let syms := ctx.symbols.map (fun kv =>
    match kv.2 with
    | Symbol.knob _ => (kv.1, Symbol.knob value)
    | s => (kv.1, s))
  { ctx with symbols := syms }

/-- Modelled from the spec: edge_list.rs `render_edges` is external; the edge
buffer is read as consecutive pairs, each rasterized as a line (§3, §4.1). -/
def renderEdgesEvents : List Point4 → (ℕ × ℕ × ℕ) → List Event
  | p0 :: p1 :: rest, c => .edgeLine p0 p1 c :: renderEdgesEvents rest c
  | _, _ => []

/-- `ScriptContext::render_edges`: multiply the edge buffer by the stack top
(only), rasterize as lines, clear the buffer. -/
def render_edges_ctx (ctx : Ctx) : Ctx :=
  let edges := ctx.edges.map (transformPoint (stackPeek ctx.coordinate_stack))
  let evs := renderEdgesEvents edges DEFAULT_FOREGROUND_COLOR
  { ctx with events := ctx.events ++ evs, edges := [] }

/-- Resolve an optional named reflection-constants override exactly as
`ScriptContext::render_polygons` does (panicking on a missing name or a
non-constants symbol). -/
def resolveConstants (ctx : Ctx) (constants : Option String) :
    Except Err ReflectionConstants :=
  match constants with
  | none => .ok ctx.reflection_constants
  | some name =>
    match lookupA ctx.symbols name with
    | some (.constants c) => .ok c
    | some _ => .error (.panicSymbolKind name)
    | none => .error (.panicSymbolNotFound name)

/-- Resolve the optional named coordinate system: multiply the polygon buffer
by the saved matrix when present, by the live stack top otherwise (panicking
on a missing name or a non-coordinate-system symbol). -/
def resolveCoordSystem (ctx : Ctx) (coord_system : Option String) :
    Except Err (List Point4) :=
  match coord_system with
  | none => .ok (ctx.polygons.map (transformPoint (stackPeek ctx.coordinate_stack)))
  | some name =>
    match lookupA ctx.symbols name with
    | some (.coordSystem m) => .ok (ctx.polygons.map (transformPoint m))
    | some _ => .error (.panicSymbolKind name)
    | none => .error (.panicSymbolNotFound name)

/-- `ScriptContext::render_polygons`: resolve overrides, apply the coordinate
transform and then the camera matrix, rasterize, clear the buffer. -/
def render_polygons_ctx (ctx : Ctx) (constants coord_system : Option String) :
    Ctx × Option Err :=
  match resolveConstants ctx constants with
  | .error e => (ctx, some e)
  | .ok rc =>
    match resolveCoordSystem ctx coord_system with
    | .error e => (ctx, some e)
    | .ok polys =>
      let polys := polys.map (transformPoint ctx.camera_matrix)
      let evs := render_polygons polys DEFAULT_FOREGROUND_COLOR ctx.shading_mode
        ctx.lighting_config rc
      ({ ctx with events := ctx.events ++ evs, polygons := [] }, none)

/-- The per-triangle loop of `ScriptContext::render_textured_polygons`: walk
the UV/material list in lockstep with the polygon buffer three points at a
time.  Per iteration the source panics, in this order, on a short buffer
slice, a missing material, and an empty point-light list (it indexes
`point_lights[0]` unconditionally). -/
def texturedLoop (polys : List Point4) (mtls : List (String × MTLq))
    (point_lights : List (Vec3 × Vec3)) :
    List (String × UV3) → ℕ → List Event × Option Err
  | [], _ => ([], none)
  | (mtlName, uv) :: rest, idx =>
    match polys.drop idx with
    | p0 :: p1 :: p2 :: _ =>
      match lookupA mtls mtlName with
      | none => ([], some (.panicMtlMissing mtlName))
      | some mtl =>
        match point_lights with
        | [] => ([], some .panicLightIndex)
        | l0 :: _ =>
          let (evs, st) := texturedLoop polys mtls point_lights rest (idx + 3)
          (.fillTextured (p0, p1, p2) uv mtl l0.2 :: evs, st)
    | _ => ([], some .panicSliceShort)

/-- `ScriptContext::render_textured_polygons`: coordinate-system and camera
transforms, then the textured per-triangle loop; the polygon buffer is
cleared only when the loop completes (a panic aborts the run). -/
def render_textured_polygons_ctx (ctx : Ctx) (info : List (String × UV3))
    (mtls : List (String × MTLq)) (coord_system : Option String) : Ctx × Option Err :=
  match resolveCoordSystem ctx coord_system with
  | .error e => (ctx, some e)
  | .ok polys =>
    let polys := polys.map (transformPoint ctx.camera_matrix)
    let (evs, st) := texturedLoop polys mtls ctx.lighting_config.point_lights info 0
    match st with
    | none => ({ ctx with events := ctx.events ++ evs, polygons := [] }, none)
    | some e => ({ ctx with events := ctx.events ++ evs, polygons := polys }, some e)

/-- The tail of the mesh arm's load path: on success of the render, insert
the geometry saved before the transform into the mesh cache; a panic skips
the insertion (the run aborts). -/
def insert_after_render (file_path : String) (entry : CachedMesh) (r : Ctx × Option Err) :
    Ctx × Option Err :=
  match r with
  | (ctx2, some e) => (ctx2, some e)
  | (ctx2, none) =>
    ({ ctx2 with mesh_cache := insertA file_path entry ctx2.mesh_cache }, none)

/-- polygon_list.rs `add_polygon`: append one triangle (w = 1). -/
def add_polygon (m : List Point4) (x0 y0 z0 x1 y1 z1 x2 y2 z2 : ℚ) : List Point4 :=
  m ++ [⟨x0, y0, z0, 1⟩, ⟨x1, y1, z1, 1⟩, ⟨x2, y2, z2, 1⟩]

/-- polygon_list.rs `add_box`: 8 corner vertices, 12 triangles via `CUBE`. -/
def add_box (m : List Point4) (x y z w h d : ℚ) : List Point4 :=
  let vertices : List Vec3 :=
    [⟨x, y, z⟩, ⟨x + w, y, z⟩, ⟨x + w, y - h, z⟩, ⟨x, y - h, z⟩,
     ⟨x, y, z - d⟩, ⟨x + w, y, z - d⟩, ⟨x + w, y - h, z - d⟩, ⟨x, y - h, z - d⟩]
  CUBE.foldl
    (fun m t =>
      let va := vertices.getD t.1 ⟨0, 0, 0⟩
      let vb := vertices.getD t.2.1 ⟨0, 0, 0⟩
      let vc := vertices.getD t.2.2 ⟨0, 0, 0⟩
      add_polygon m va.x va.y va.z vb.x vb.y vb.z vc.x vc.y vc.z)
    m

/-- Modelled from the spec: edge_list.rs `add_edge` appends the two endpoints
of a line segment to the edge buffer (w = 1). -/
def add_edge (m : List Point4) (x0 y0 z0 x1 y1 z1 : ℚ) : List Point4 :=
  m ++ [⟨x0, y0, z0, 1⟩, ⟨x1, y1, z1, 1⟩]

/-- The cache-miss path of the mesh arm: record the loader call, append the
loaded geometry to the polygon buffer, render through the textured or plain
polygon path, and insert the untransformed geometry into the cache. -/
def mesh_load_path (ext : ExternalFns) (constants : Option String) (file_path : String)
    (coord_system : Option String) (ctx : Ctx) : Ctx × Option Err :=
  let ctx := { ctx with mesh_loads := ctx.mesh_loads ++ [file_path] }
  match ext.meshOracle file_path with
  | .error msg => (ctx, some (.meshErr msg))
  | .ok g =>
    let ctx := { ctx with polygons := ctx.polygons ++ g.polys }
    match g.texinfo with
    | some (info, mtls) =>
      insert_after_render file_path (CachedMesh.texture ctx.polygons info mtls)
        (render_textured_polygons_ctx ctx info mtls coord_system)
    | none =>
      insert_after_render file_path (CachedMesh.noTexture ctx.polygons)
        (render_polygons_ctx ctx constants coord_system)

/-- run_script.rs `execute_command`.  `recurEval` performs the nested
`evaluate_commands` call of `run_composite_command` (tied by fuel in
`evaluate_commands` below).  The result status is `none` for success and
`some e` when the command `Err`s or panics; the returned context always
reflects the side effects performed up to that point. -/
def execute_command (recurEval : Ctx → List Command → Ctx × Option Err)
    (ext : ExternalFns) (command : Command) (ctx : Ctx) (animation : Bool) :
    Ctx × Option Err :=
  match command with
  | .display =>
    if !animation then ({ ctx with events := ctx.events ++ [.displayed] }, none)
    else (ctx, none)
  | .save file_path =>
    if !animation then ({ ctx with events := ctx.events ++ [.savedFile file_path] }, none)
    else (ctx, none)
  | .clear => ({ ctx with events := ctx.events ++ [.clearedPicture] }, none)
  | .push => ({ ctx with coordinate_stack := stackPush ctx.coordinate_stack }, none)
  | .pop => ({ ctx with coordinate_stack := stackPop ctx.coordinate_stack }, none)
  | .move a b c knob =>
    let m := get_knob_value ctx knob
    let st := stackApply (translationM (a * m) (b * m) (c * m)) ctx.coordinate_stack
    ({ ctx with coordinate_stack := st }, none)
  | .scale a b c knob =>
    let m := get_knob_value ctx knob
    let st := stackApply (dilationM (a * m) (b * m) (c * m)) ctx.coordinate_stack
    ({ ctx with coordinate_stack := st }, none)
  | .rotate axis degrees knob =>
    let m := get_knob_value ctx knob
    let st := stackApply (ext.rotationM axis (degrees * m)) ctx.coordinate_stack
    ({ ctx with coordinate_stack := st }, none)
  | .line x0 y0 z0 x1 y1 z1 =>
    (render_edges_ctx { ctx with edges := add_edge ctx.edges x0 y0 z0 x1 y1 z1 }, none)
  | .circle x y z r =>
    (render_edges_ctx { ctx with edges := ctx.edges ++ ext.circlePoints x y z r }, none)
  | .hermite x0 y0 x1 y1 rx0 ry0 rx1 ry1 =>
    (render_edges_ctx
      { ctx with edges := ctx.edges ++ ext.hermitePoints x0 y0 x1 y1 rx0 ry0 rx1 ry1 }, none)
  | .bezier x0 y0 x1 y1 x2 y2 x3 y3 =>
    (render_edges_ctx
      { ctx with edges := ctx.edges ++ ext.bezierPoints x0 y0 x1 y1 x2 y2 x3 y3 }, none)
  | .polygon constants x0 y0 z0 x1 y1 z1 x2 y2 z2 coord_system =>
    render_polygons_ctx
      { ctx with polygons := add_polygon ctx.polygons x0 y0 z0 x1 y1 z1 x2 y2 z2 }
      constants coord_system
  | .box constants x y z w h d coord_system =>
    render_polygons_ctx { ctx with polygons := add_box ctx.polygons x y z w h d }
      constants coord_system
  | .sphere constants x y z r coord_system =>
    render_polygons_ctx { ctx with polygons := ctx.polygons ++ ext.spherePoints x y z r }
      constants coord_system
  | .torus constants x y z r0 r1 coord_system =>
    render_polygons_ctx { ctx with polygons := ctx.polygons ++ ext.torusPoints x y z r0 r1 }
      constants coord_system
  | .cylinder constants x y z r h coord_system =>
    render_polygons_ctx { ctx with polygons := ctx.polygons ++ ext.cylinderPoints x y z r h }
      constants coord_system
  | .cone constants x y z r h coord_system =>
    render_polygons_ctx { ctx with polygons := ctx.polygons ++ ext.conePoints x y z r h }
      constants coord_system
  | .mesh constants file_path coord_system =>
    let cached := lookupA ctx.mesh_cache file_path
    let cachedData : List Point4 × List (String × UV3) × List (String × MTLq) :=
      match cached with
      | some (.noTexture m) => (m, [], [])
      | some (.texture m i t) => (m, i, t)
      | none => ([], [], [])
    let (polys, info, mtls) := cachedData
    if polys ≠ [] then
      let ctx := { ctx with polygons := polys }
      if info ≠ [] then render_textured_polygons_ctx ctx info mtls coord_system
      else render_polygons_ctx ctx constants coord_system
    else
      mesh_load_path ext constants file_path coord_system ctx
  | .clearLights =>
    ({ ctx with lighting_config := { ctx.lighting_config with point_lights := [] } }, none)
  | .addLight r g b x y z =>
    let lights := ctx.lighting_config.point_lights ++ [(⟨r, g, b⟩, normalize_vector ⟨x, y, z⟩)]
    ({ ctx with lighting_config := { ctx.lighting_config with point_lights := lights } }, none)
  | .setAmbient r g b =>
    ({ ctx with lighting_config := { ctx.lighting_config with ambient_light_color := ⟨r, g, b⟩ } },
     none)
  | .defineConstants name kar kdr ksr kag kdg ksg kab kdb ksb =>
    let c : ReflectionConstants := ⟨⟨kar, kag, kab⟩, ⟨kdr, kdg, kdb⟩, ⟨ksr, ksg, ksb⟩⟩
    ({ ctx with symbols := insertA name (Symbol.constants c) ctx.symbols }, none)
  | .setShading shading_mode => ({ ctx with shading_mode := shading_mode }, none)
  | .setCamera eye_x eye_y eye_z aim_x aim_y aim_z =>
    let eye : Vec3 := ⟨eye_x, eye_y, eye_z⟩
    let aim : Vec3 := ⟨aim_x, aim_y, aim_z⟩
    let forward := normalize_vector (subtract_vectors aim eye)
    let up : Vec3 := ⟨0, 1, 0⟩
    let right := normalize_vector (cross_product forward up)
    let up_new := cross_product right forward
    let ex := -dot_product right eye
    let ey := -dot_product up_new eye
    let ez := dot_product forward eye
    let cam : M4 :=
      ⟨⟨right.x, right.y, right.z, 0⟩,
       ⟨up_new.x, up_new.y, up_new.z, 0⟩,
       ⟨-forward.x, -forward.y, -forward.z, 0⟩,
       ⟨ex, ey, ez, 1⟩⟩
    ({ ctx with camera_matrix := cam }, none)
  | .setKnob name value => (set_knob name value ctx, none)
  | .setAllKnobs value => (set_all_knobs value ctx, none)
  | .saveCoordSystem name =>
    let sym := Symbol.coordSystem (stackPeek ctx.coordinate_stack)
    ({ ctx with symbols := insertA name sym ctx.symbols }, none)
  | .createComposite name commands =>
    ({ ctx with symbols := insertA name (.compositeCommand commands) ctx.symbols }, none)
  | .runComposite name =>
    match lookupA ctx.symbols name with
    | some (.compositeCommand commands) => recurEval ctx commands
    | _ => (ctx, some (.compositeNotFound name))
  | _ => (ctx, none)

/-- The `for command in commands` loop: execute in order, stopping at the
first error (`?`). -/
def execListWith (execOne : Command → Ctx → Ctx × Option Err) :
    List Command → Ctx → Ctx × Option Err
  | [], ctx => (ctx, none)
  | c :: rest, ctx =>
    match execOne c ctx with
    | (ctx', none) => execListWith execOne rest ctx'
    | (ctx', some e) => (ctx', some e)

/-- The per-frame animation loop: reset the frame state, merge the frame's
resolved knobs into the symbol table, replay the full command list.  The
per-frame gif/png output is external and leaves the context unchanged. -/
def runFramesWith (execOne : Command → Ctx → Ctx × Option Err) (cmds : List Command) :
    List KnobMap → Ctx → Ctx × Option Err
  | [], ctx => (ctx, none)
  | knobs :: rest, ctx =>
    let ctx := frame_reset ctx
    let ctx := knobs.foldl (fun c kv => set_knob kv.1 kv.2 c) ctx
    match execListWith execOne cmds ctx with
    | (ctx', none) => runFramesWith execOne cmds rest ctx'
    | (ctx', some e) => (ctx', some e)

/-- The body of run_script.rs `evaluate_commands`, parameterized by the
recursive evaluator used for composite commands. -/
def evalCommandsCore (recurEval : Ctx → List Command → Ctx × Option Err)
    (ext : ExternalFns) (ctx : Ctx) (commands : List Command) : Ctx × Option Err :=
  match first_pass commands with
  | .error msg => (ctx, some (.animationErr msg))
  | .ok (num_frames, _basename) =>
    if num_frames = 0 then
      execListWith (fun c ctx => execute_command recurEval ext c ctx false) commands ctx
    else
      match second_pass commands num_frames with
      | .error msg => (ctx, some (.animationErr msg))
      | .ok frame_knob_list =>
        runFramesWith (fun c ctx => execute_command recurEval ext c ctx true) commands
          frame_knob_list ctx

/-- run_script.rs `evaluate_commands`, with explicit fuel bounding the nesting
depth of composite-command evaluation (unbounded in Rust, where a cyclic
composite would not terminate). -/
def evaluate_commands (ext : ExternalFns) : ℕ → Ctx → List Command → Ctx × Option Err
  | 0, ctx, _ => (ctx, some .outOfFuel)
  | fuel + 1, ctx, commands => evalCommandsCore (evaluate_commands ext fuel) ext ctx commands

/-- A trivial external-function instance, used to instantiate theorems at
concrete inputs. -/
def trivialExt : ExternalFns :=
  { rotationM := fun _ _ => identityM
    circlePoints := fun _ _ _ _ => []
    hermitePoints := fun _ _ _ _ _ _ _ _ => []
    bezierPoints := fun _ _ _ _ _ _ _ _ => []
    spherePoints := fun _ _ _ _ => []
    torusPoints := fun _ _ _ _ _ => []
    cylinderPoints := fun _ _ _ _ _ => []
    conePoints := fun _ _ _ _ _ => []
    meshOracle := fun _ => .error "file not found" }

/-- A trivial recursive evaluator placeholder for theorems about commands that
never evaluate composites. -/
def trivialRecur : Ctx → List Command → Ctx × Option Err :=
  fun ctx _ => (ctx, none)

/-- C1: the claim, formalized — the scale arm would apply a dilation by the
knob-interpolated factor `1 + (requested - 1) * k` per axis. -/
def claimedScaleDilation (a b c k : ℚ) : M4 :=
  dilationM (1 + (a - 1) * k) (1 + (b - 1) * k) (1 + (c - 1) * k)

/-- C1, counterexample: with a knob bound to 0 and a requested scale of
(2, 3, 4), the executor applies a dilation by (0, 0, 0) — the factors are
multiplied by the knob directly — whereas the claim's interpolation
`1 + (requested − 1) × 0` would make the scale a no-op (identity dilation). -/
theorem c1_counterexample :
    (execute_command trivialRecur trivialExt (.scale 2 3 4 (some "K"))
        (set_knob "K" 0 initial_context) false).1.coordinate_stack
      = [matMul identityM (dilationM 0 0 0)] ∧
    matMul identityM (dilationM 0 0 0) ≠ matMul identityM (claimedScaleDilation 2 3 4 0) := by
  constructor
  · simp [execute_command, get_knob_value, set_knob, initial_context, insertA, lookupA,
      stackApply, mul_zero]
  · intro h
    have h0 := congrArg (fun M : M4 => M.r0.x) h
    simp [matMul, transformPoint, identityM, dilationM, claimedScaleDilation] at h0

/-- C1 (amended): for every scale command with requested factors (a, b, c) and
knob resolving to k, the transform applied to the coordinate-stack top is a
dilation by the directly multiplied factor `requested * k` per axis (so k = 1
yields the full requested scale and k = 0 collapses the scale to zero), and
the command reports no error. -/
theorem c1_scale_applies_direct_dilation
    (recurEval : Ctx → List Command → Ctx × Option Err) (ext : ExternalFns)
    (ctx : Ctx) (anim : Bool) (a b c : ℚ) (knob : Option String)
    (T : M4) (rest : List M4) (h : ctx.coordinate_stack = T :: rest) :
    (execute_command recurEval ext (.scale a b c knob) ctx anim).2 = none ∧
    (execute_command recurEval ext (.scale a b c knob) ctx anim).1.coordinate_stack
      = matMul T (dilationM (a * get_knob_value ctx knob) (b * get_knob_value ctx knob)
          (c * get_knob_value ctx knob)) :: rest ∧
    (∀ p : Point4, transformPoint (dilationM (a * get_knob_value ctx knob)
        (b * get_knob_value ctx knob) (c * get_knob_value ctx knob)) p
      = ⟨(a * get_knob_value ctx knob) * p.x, (b * get_knob_value ctx knob) * p.y,
         (c * get_knob_value ctx knob) * p.z, p.w⟩) := by
  refine ⟨rfl, ?_, ?_⟩
  · simp [execute_command, stackApply, h]
  · intro p
    simp only [transformPoint, dilationM, Point4.mk.injEq]
    refine ⟨by ring, by ring, by ring, by ring⟩

/-- C1 witness: the amended theorem applied at a concrete input. -/
theorem c1_scale_applies_direct_dilation_witness :
    (execute_command trivialRecur trivialExt (.scale 2 3 4 none)
        initial_context false).2 = none ∧
    (execute_command trivialRecur trivialExt (.scale 2 3 4 none)
        initial_context false).1.coordinate_stack
      = matMul identityM (dilationM (2 * get_knob_value initial_context none)
          (3 * get_knob_value initial_context none)
          (4 * get_knob_value initial_context none)) :: [] ∧
    (∀ p : Point4, transformPoint (dilationM (2 * get_knob_value initial_context none)
        (3 * get_knob_value initial_context none)
        (4 * get_knob_value initial_context none)) p
      = ⟨(2 * get_knob_value initial_context none) * p.x,
         (3 * get_knob_value initial_context none) * p.y,
         (4 * get_knob_value initial_context none) * p.z, p.w⟩) :=
  c1_scale_applies_direct_dilation trivialRecur trivialExt initial_context false 2 3 4 none
    identityM [] rfl

/-- The four edge-drawing commands of the claim C3. -/
def isDrawingCommand : Command → Prop
  | .line _ _ _ _ _ _ => True
  | .circle _ _ _ _ => True
  | .hermite _ _ _ _ _ _ _ _ => True
  | .bezier _ _ _ _ _ _ _ _ => True
  | _ => False

/-- C3, counterexample: with the camera matrix set to a dilation by 2 and the
stack at the identity, a line command rasterizes the untransformed endpoints —
the camera matrix is never applied to the edge buffer, contradicting the
claimed (stack-top × camera) transform. -/
theorem c3_counterexample :
    (execute_command trivialRecur trivialExt (.line 1 1 1 2 2 2)
        { initial_context with camera_matrix := dilationM 2 2 2 } false).1.edges = [] ∧
    (execute_command trivialRecur trivialExt (.line 1 1 1 2 2 2)
        { initial_context with camera_matrix := dilationM 2 2 2 } false).1.events
      = [Event.edgeLine ⟨1, 1, 1, 1⟩ ⟨2, 2, 2, 1⟩ DEFAULT_FOREGROUND_COLOR] ∧
    (execute_command trivialRecur trivialExt (.line 1 1 1 2 2 2)
        { initial_context with camera_matrix := dilationM 2 2 2 } false).1.events
      ≠ renderEdgesEvents ((add_edge [] 1 1 1 2 2 2).map
          (transformPoint (matMul identityM (dilationM 2 2 2)))) DEFAULT_FOREGROUND_COLOR := by
  refine ⟨rfl, ?_, ?_⟩
  · simp [execute_command, render_edges_ctx, add_edge, initial_context, stackPeek,
      renderEdgesEvents, transformPoint, identityM]
  · intro h
    simp [execute_command, render_edges_ctx, add_edge, initial_context, stackPeek,
      renderEdgesEvents, transformPoint, identityM, matMul, dilationM] at h

/-- C3 (amended): for every drawing command (line, circle, hermite, bezier),
the points appended to the edge buffer are transformed by the coordinate-stack
top only — the camera matrix is not applied, and the emitted events are the
same for every camera matrix — then rasterized as consecutive line segments,
and the edge buffer is empty afterwards with no error. -/
theorem c3_edges_transformed_by_stack_top_only
    (recurEval : Ctx → List Command → Ctx × Option Err) (ext : ExternalFns)
    (ctx : Ctx) (anim : Bool) (cmd : Command) (h : isDrawingCommand cmd) :
    ∃ pts : List Point4,
      (∀ C : M4,
        (execute_command recurEval ext cmd { ctx with camera_matrix := C } anim).1.events
          = ctx.events ++ renderEdgesEvents
              (pts.map (transformPoint (stackPeek ctx.coordinate_stack)))
              DEFAULT_FOREGROUND_COLOR) ∧
      (execute_command recurEval ext cmd ctx anim).1.edges = [] ∧
      (execute_command recurEval ext cmd ctx anim).2 = none := by
  cases cmd with
  | line x0 y0 z0 x1 y1 z1 =>
    exact ⟨add_edge ctx.edges x0 y0 z0 x1 y1 z1,
      fun C => by simp [execute_command, render_edges_ctx], rfl, rfl⟩
  | circle x y z r =>
    exact ⟨ctx.edges ++ ext.circlePoints x y z r,
      fun C => by simp [execute_command, render_edges_ctx], rfl, rfl⟩
  | hermite x0 y0 x1 y1 rx0 ry0 rx1 ry1 =>
    exact ⟨ctx.edges ++ ext.hermitePoints x0 y0 x1 y1 rx0 ry0 rx1 ry1,
      fun C => by simp [execute_command, render_edges_ctx], rfl, rfl⟩
  | bezier x0 y0 x1 y1 x2 y2 x3 y3 =>
    exact ⟨ctx.edges ++ ext.bezierPoints x0 y0 x1 y1 x2 y2 x3 y3,
      fun C => by simp [execute_command, render_edges_ctx], rfl, rfl⟩
  | _ => exact absurd h (by simp [isDrawingCommand])

/-- C3 witness: the amended theorem applied to a concrete line command. -/
theorem c3_edges_transformed_by_stack_top_only_witness :
    ∃ pts : List Point4,
      (∀ C : M4,
        (execute_command trivialRecur trivialExt (.line 1 1 1 2 2 2)
            { initial_context with camera_matrix := C } false).1.events
          = initial_context.events ++ renderEdgesEvents
              (pts.map (transformPoint (stackPeek initial_context.coordinate_stack)))
              DEFAULT_FOREGROUND_COLOR) ∧
      (execute_command trivialRecur trivialExt (.line 1 1 1 2 2 2)
          initial_context false).1.edges = [] ∧
      (execute_command trivialRecur trivialExt (.line 1 1 1 2 2 2)
          initial_context false).2 = none :=
  c3_edges_transformed_by_stack_top_only trivialRecur trivialExt initial_context false
    (.line 1 1 1 2 2 2) trivial

/-- A set-frames command is present. -/
def containsSetFrames (cmds : List Command) : Bool :=
  cmds.any fun c => match c with | .setFrames _ => true | _ => false

/-- A vary command is present. -/
def containsVaryCmd (cmds : List Command) : Bool :=
  cmds.any fun c => match c with | .varyKnob _ _ _ _ _ _ => true | _ => false

/-- A tween command is present. -/
def containsTweenCmd (cmds : List Command) : Bool :=
  cmds.any fun c => match c with | .tween _ _ _ _ _ => true | _ => false

/-- A set-basename command is present. -/
def containsBasenameCmd (cmds : List Command) : Bool :=
  cmds.any fun c => match c with | .setBaseName _ => true | _ => false

/-- An animation-indicating command (set-basename, vary, or tween) is
present. -/
def containsAnimIndicator (cmds : List Command) : Bool :=
  containsVaryCmd cmds || containsTweenCmd cmds || containsBasenameCmd cmds

/-- The declared frame count: the value of the last set-frames command,
starting from a given default. -/
def declaredFramesFrom (init : ℕ) (cmds : List Command) : ℕ :=
  cmds.foldl (fun n c => match c with | .setFrames m => m | _ => n) init

/-- The declared frame count (0 when never set). -/
def declaredFrames (cmds : List Command) : ℕ :=
  declaredFramesFrom 0 cmds

/-- The declared basename: the value of the last set-basename command,
starting from a given default. -/
def declaredBasenameFrom (init : String) (cmds : List Command) : String :=
  cmds.foldl (fun s c => match c with | .setBaseName b => b | _ => s) init

/-- The declared basename (empty when never set). -/
def declaredBasename (cmds : List Command) : String :=
  declaredBasenameFrom "" cmds

/-- The `first_pass` scanning loop computes exactly the last declared frame
count and basename together with the four presence flags. -/
theorem first_pass_fold (cmds : List Command) (fr : ℕ) (bn : String) (cF cV cB cT : Bool) :
    cmds.foldl first_pass_step (fr, bn, cF, cV, cB, cT) =
      (declaredFramesFrom fr cmds, declaredBasenameFrom bn cmds,
       cF || containsSetFrames cmds, cV || containsVaryCmd cmds,
       cB || containsBasenameCmd cmds, cT || containsTweenCmd cmds) := by
  induction cmds generalizing fr bn cF cV cB cT with
  | nil =>
    simp [declaredFramesFrom, declaredBasenameFrom, containsSetFrames, containsVaryCmd,
      containsBasenameCmd, containsTweenCmd]
  | cons c rest ih =>
    cases c <;>
      simp [first_pass_step, ih, declaredFramesFrom, declaredBasenameFrom, containsSetFrames,
        containsVaryCmd, containsBasenameCmd, containsTweenCmd, Bool.or_assoc]

/-- When no set-basename command occurs the declared-basename scan keeps its
initial value. -/
theorem declaredBasenameFrom_of_none (cmds : List Command) (init : String)
    (h : containsBasenameCmd cmds = false) : declaredBasenameFrom init cmds = init := by
  induction cmds generalizing init with
  | nil => rfl
  | cons c rest ih =>
    cases c <;> simp [containsBasenameCmd, declaredBasenameFrom] at h ⊢ <;>
      exact ih init (by simpa [containsBasenameCmd] using h)

/-- C6 (confirmed): `first_pass` returns an error if and only if an
animation-indicating command (set-basename, vary, or tween) is present and no
set-frames command is; when it succeeds it returns the declared frame count
(the last set-frames value, 0 when never set) and the declared basename (the
last set-basename value, with the documented "frame" default when a frame
count was set without a basename). -/
theorem c6_first_pass_error_iff (cmds : List Command) :
    ((first_pass cmds).isOk = false ↔
      containsAnimIndicator cmds = true ∧ containsSetFrames cmds = false) ∧
    (containsAnimIndicator cmds = false ∨ containsSetFrames cmds = true →
      first_pass cmds = .ok (declaredFrames cmds,
        if containsBasenameCmd cmds then declaredBasename cmds
        else if containsSetFrames cmds then "frame" else "")) := by
  unfold first_pass
  rw [first_pass_fold]
  cases hV : containsVaryCmd cmds <;> cases hT : containsTweenCmd cmds <;>
    cases hB : containsBasenameCmd cmds <;> cases hF : containsSetFrames cmds <;>
      simp [containsAnimIndicator, hV, hT, hB, hF, declaredFrames, declaredBasename,
        Except.isOk, Except.toBool, declaredBasenameFrom_of_none]

/-- C6 witness: the theorem applied to a script declaring 3 frames and the
basename "x", with the success hypothesis discharged concretely. -/
theorem c6_first_pass_error_iff_witness :
    first_pass [Command.setFrames 3, Command.setBaseName "x"] =
      .ok (declaredFrames [Command.setFrames 3, Command.setBaseName "x"],
        if containsBasenameCmd [Command.setFrames 3, Command.setBaseName "x"]
        then declaredBasename [Command.setFrames 3, Command.setBaseName "x"]
        else if containsSetFrames [Command.setFrames 3, Command.setBaseName "x"]
        then "frame" else "") :=
  (c6_first_pass_error_iff [Command.setFrames 3, Command.setBaseName "x"]).2 (Or.inr rfl)

/-- `frame_knobs[frame]` lookup of a knob: the value resolved by `second_pass`
for a frame. -/
def frameKnob (maps : List KnobMap) (f : ℕ) (k : String) : Option ℚ :=
  match maps.get? f with
  | some m => lookupA m k
  | none => none

theorem modifyNth_get? {α : Type} (g : α → α) (l : List α) (i j : ℕ) :
    (modifyNth g l i).get? j = if i = j then (l.get? j).map g else l.get? j := by
  induction l generalizing i j with
  | nil => simp [modifyNth]
  | cons a rest ih =>
    cases i with
    | zero => cases j <;> simp [modifyNth]
    | succ i =>
      cases j with
      | zero => simp [modifyNth]
      | succ j => simpa [modifyNth] using ih i j

theorem lookupA_removeKey {κ α : Type} [DecidableEq κ] (m : List (κ × α)) (k j : κ)
    (h : j ≠ k) : lookupA (removeKey k m) j = lookupA m j := by
  induction m with
  | nil => rfl
  | cons kv rest ih =>
    by_cases hk : kv.1 = k
    · have h1 : ¬ kv.1 = j := by
        rw [hk]
        exact fun e => h e.symm
      simp [removeKey, hk, lookupA, h1, ih]
      exact (if_neg (fun e => h e.symm)).symm
    · simp [removeKey, hk, lookupA, ih]

theorem lookupA_insertA_self {κ α : Type} [DecidableEq κ] (k : κ) (v : α)
    (m : List (κ × α)) : lookupA (insertA k v m) k = some v := by
  simp [insertA, lookupA]

theorem lookupA_insertA_other {κ α : Type} [DecidableEq κ] (k j : κ) (v : α)
    (m : List (κ × α)) (h : j ≠ k) : lookupA (insertA k v m) j = lookupA m j := by
  have h2 : ¬ k = j := fun e => h e.symm
  simp [insertA, lookupA, h2, lookupA_removeKey m k j h]

theorem applyRamp_cons (knob : String) (ez : Option CubicBezierEasing) (s : ℕ) (a delta : ℚ)
    (f : ℕ) (fs : List ℕ) (maps : List KnobMap) :
    applyRamp knob ez s a delta (f :: fs) maps =
      applyRamp knob ez s a delta fs
        (modifyNth (insertA knob (rampValue ez s a delta f)) maps f) := rfl

theorem applyRamp_get?_notMem (knob : String) (ez : Option CubicBezierEasing) (s : ℕ)
    (a delta : ℚ) (fs : List ℕ) (maps : List KnobMap) (j : ℕ) (h : j ∉ fs) :
    (applyRamp knob ez s a delta fs maps).get? j = maps.get? j := by
  induction fs generalizing maps with
  | nil => rfl
  | cons f rest ih =>
    have hjr : j ∉ rest := fun hm => h (by simp [hm])
    have hjf : ¬ f = j := fun e => h (by simp [e])
    rw [applyRamp_cons, ih _ hjr, modifyNth_get?, if_neg hjf]

theorem applyRamp_get?_mem (knob : String) (ez : Option CubicBezierEasing) (s : ℕ)
    (a delta : ℚ) (fs : List ℕ) (maps : List KnobMap) (j : ℕ) (hnd : fs.Nodup)
    (h : j ∈ fs) :
    (applyRamp knob ez s a delta fs maps).get? j =
      (maps.get? j).map (insertA knob (rampValue ez s a delta j)) := by
  induction fs generalizing maps with
  | nil => cases h
  | cons f rest ih =>
    rw [applyRamp_cons]
    have hfr : f ∉ rest := (List.nodup_cons.1 hnd).1
    rcases List.mem_cons.1 h with he | hm
    · subst he
      rw [applyRamp_get?_notMem _ _ _ _ _ _ _ _ hfr, modifyNth_get?, if_pos rfl]
    · have hne : ¬ f = j := fun e => hfr (e ▸ hm)
      rw [ih _ (List.nodup_cons.1 hnd).2 hm, modifyNth_get?, if_neg hne]

theorem mem_frameRange (s e j : ℕ) : j ∈ frameRange s e ↔ s ≤ j ∧ j < s + (e + 1 - s) := by
  simp only [frameRange, List.mem_map, List.mem_range]
  constructor
  · rintro ⟨i, hi, rfl⟩
    omega
  · rintro ⟨h1, h2⟩
    exact ⟨j - s, by omega, by omega⟩

theorem nodup_frameRange (s e : ℕ) : (frameRange s e).Nodup :=
  List.Nodup.map (fun a b h => by omega) (List.nodup_range _)

theorem get?_replicate_nil (n f : ℕ) :
    (List.replicate n ([] : KnobMap)).get? f = if f < n then some [] else none := by
  induction n generalizing f with
  | zero => simp
  | succ n ih =>
    cases f with
    | zero => simp [List.replicate]
    | succ f => simpa [List.replicate, Nat.succ_lt_succ_iff] using ih f

/-- The value `second_pass` stores for a single no-easing vary directive, at
every frame of its inclusive range. -/
theorem vary_ramp_value (k : String) (s e : ℕ) (a delta : ℚ) (n : ℕ) (j : ℕ)
    (hsj : s ≤ j) (hje : j ≤ e) (hjn : j < n) :
    frameKnob (applyRamp k none s a delta (frameRange s e) (List.replicate n [])) j k
      = some (a + delta * ((j : ℚ) - (s : ℚ))) := by
  have hj : j ∈ frameRange s e := (mem_frameRange s e j).2 ⟨hsj, by omega⟩
  rw [frameKnob, applyRamp_get?_mem _ _ _ _ _ _ _ _ (nodup_frameRange s e) hj,
    get?_replicate_nil, if_pos hjn]
  simp [rampValue, lookupA_insertA_self]

/-- `second_pass` on a single no-easing vary directive that passes validation
resolves to the ramp applied to the empty frame maps. -/
theorem second_pass_single_vary (k : String) (s e : ℕ) (a b : ℚ) (n : ℕ)
    (h1 : ¬(s ≥ n ∨ e ≥ n)) (h2 : ¬ s > e) :
    second_pass [Command.varyKnob k s e a b none] n =
      .ok (applyRamp k none s a ((b - a) / (((e : ℕ) : ℚ) - ((s : ℕ) : ℚ))) (frameRange s e)
        (List.replicate n [])) := by
  rw [second_pass]
  simp only [second_pass_go]
  rw [if_neg h1, if_neg h2]

/-- C4, counterexample: the vary directive `vary k 0 0 0 1` passes validation
(`0 ≤ 0 ≤ 0 < 1`), but the resolved value at its end frame is not the end
value 1: the interpolation divides by `end_frame − start_frame = 0`.  In this
exact-arithmetic model the stored value is the start value 0; in IEEE f32 the
stored value is `0 + (1/0)·0 = NaN`; under either semantics it differs from
the claimed exact end value 1. -/
theorem c4_counterexample :
    (second_pass [Command.varyKnob "k" 0 0 0 1 none] 1).map
        (fun maps => frameKnob maps 0 "k") = .ok (some 0) ∧ (0 : ℚ) ≠ 1 := by
  constructor
  · rw [second_pass_single_vary "k" 0 0 0 1 1 (by omega) (by omega)]
    simp only [Except.map]
    rw [vary_ramp_value "k" 0 0 0 _ 1 0 (le_refl 0) (le_refl 0) (by omega)]
    norm_num
  · norm_num

/-- C4 (amended): for every vary directive with start frame s, end frame e,
start value a, end value b and no easing, with `s < e` (strictly — at `s = e`,
which also passes validation, the interpolation divides by zero, see the
counterexample) and `e < frames`, the value resolved by `second_pass` at every
frame `s ≤ f ≤ e` is exactly `a + (b − a)·(f − s)/(e − s)`; in particular the
value at frame s is exactly a and the value at frame e is exactly b. -/
theorem c4_vary_linear_resolution (k : String) (s e : ℕ) (a b : ℚ) (n : ℕ)
    (hse : s < e) (hen : e < n) (f : ℕ) (hsf : s ≤ f) (hfe : f ≤ e) :
    (second_pass [Command.varyKnob k s e a b none] n).map
        (fun maps => frameKnob maps f k)
      = .ok (some (a + (b - a) * ((f : ℚ) - (s : ℚ)) / ((e : ℚ) - (s : ℚ)))) ∧
    (second_pass [Command.varyKnob k s e a b none] n).map
        (fun maps => frameKnob maps s k) = .ok (some a) ∧
    (second_pass [Command.varyKnob k s e a b none] n).map
        (fun maps => frameKnob maps e k) = .ok (some b) := by
  have hes : ((e : ℚ) - (s : ℚ)) ≠ 0 := by
    have : (s : ℚ) < (e : ℚ) := by exact_mod_cast hse
    exact sub_ne_zero.2 (ne_of_gt this)
  rw [second_pass_single_vary k s e a b n (by omega) (by omega)]
  simp only [Except.map]
  refine ⟨?_, ?_, ?_⟩
  · rw [vary_ramp_value k s e a _ n f hsf hfe (by omega)]
    congr 2
    ring
  · rw [vary_ramp_value k s e a _ n s (le_refl s) (by omega) (by omega)]
    congr 2
    ring
  · rw [vary_ramp_value k s e a _ n e (by omega) (le_refl e) (by omega)]
    congr 2
    field_simp

/-- C4 witness: the amended theorem applied at `vary k 0 2 0 10` over 3
frames, evaluated at the middle frame. -/
theorem c4_vary_linear_resolution_witness :
    (second_pass [Command.varyKnob "k" 0 2 0 10 none] 3).map
        (fun maps => frameKnob maps 1 "k")
      = .ok (some (0 + (10 - 0) * ((1 : ℚ) - ((0 : ℕ) : ℚ)) / (((2 : ℕ) : ℚ) - ((0 : ℕ) : ℚ)))) ∧
    (second_pass [Command.varyKnob "k" 0 2 0 10 none] 3).map
        (fun maps => frameKnob maps 0 "k") = .ok (some 0) ∧
    (second_pass [Command.varyKnob "k" 0 2 0 10 none] 3).map
        (fun maps => frameKnob maps 2 "k") = .ok (some 10) :=
  c4_vary_linear_resolution "k" 0 2 0 10 3 (by omega) (by omega) 1 (by omega) (by omega)

theorem modifyNth_length {α : Type} (g : α → α) (l : List α) (i : ℕ) :
    (modifyNth g l i).length = l.length := by
  induction l generalizing i with
  | nil => rfl
  | cons a rest ih => cases i <;> simp [modifyNth, ih]

theorem applyRamp_length (knob : String) (ez : Option CubicBezierEasing) (s : ℕ)
    (a delta : ℚ) (fs : List ℕ) (maps : List KnobMap) :
    (applyRamp knob ez s a delta fs maps).length = maps.length := by
  induction fs generalizing maps with
  | nil => rfl
  | cons f rest ih => rw [applyRamp_cons, ih, modifyNth_length]

/-- A ramp for one knob never changes the resolved value of any other knob. -/
theorem frameKnob_applyRamp_other (knob : String) (ez : Option CubicBezierEasing) (s : ℕ)
    (a delta : ℚ) (fs : List ℕ) (maps : List KnobMap) (f : ℕ) (j : String) (hj : j ≠ knob) :
    frameKnob (applyRamp knob ez s a delta fs maps) f j = frameKnob maps f j := by
  induction fs generalizing maps with
  | nil => rfl
  | cons f0 rest ih =>
    rw [applyRamp_cons, ih]
    rw [frameKnob, frameKnob, modifyNth_get?]
    by_cases he : f0 = f
    · rw [if_pos he]
      cases maps.get? f with
      | none => rfl
      | some m => simp [lookupA_insertA_other _ _ _ _ hj]
    · rw [if_neg he]

/-- The value a ramp stores for its knob at every frame of its range. -/
theorem frameKnob_applyRamp_self (knob : String) (ez : Option CubicBezierEasing) (s : ℕ)
    (a delta : ℚ) (fs : List ℕ) (maps : List KnobMap) (f : ℕ) (hnd : fs.Nodup)
    (hf : f ∈ fs) (hlt : f < maps.length) :
    frameKnob (applyRamp knob ez s a delta fs maps) f knob =
      some (rampValue ez s a delta f) := by
  rw [frameKnob, applyRamp_get?_mem _ _ _ _ _ _ _ _ hnd hf]
  cases hm : maps.get? f with
  | none =>
    exact absurd (List.get?_eq_none.1 hm) (by omega)
  | some m => simp [lookupA_insertA_self]

theorem frameKnob_replicate (n f : ℕ) (j : String) :
    frameKnob (List.replicate n ([] : KnobMap)) f j = none := by
  rw [frameKnob, get?_replicate_nil]
  by_cases h : f < n
  · rw [if_pos h]
    rfl
  · rw [if_neg h]

theorem replicate_cons_of_pos (n : ℕ) (h : 0 < n) :
    List.replicate n ([] : KnobMap) = [] :: List.replicate (n - 1) [] := by
  cases n with
  | zero => omega
  | succ m => simp [List.replicate]

theorem second_pass_go_nil (frames : ℕ) (fk : List KnobMap) (saved : List (String × KnobMap)) :
    second_pass_go frames [] fk saved = .ok fk := rfl

theorem second_pass_go_save (frames : ℕ) (name : String) (rest : List Command) (m0 : KnobMap)
    (tl : List KnobMap) (saved : List (String × KnobMap)) :
    second_pass_go frames (Command.saveKnobList name :: rest) (m0 :: tl) saved =
      second_pass_go frames rest (m0 :: tl) (insertA name m0 saved) := rfl

theorem second_pass_go_vary_none (frames : ℕ) (knob : String) (s e : ℕ) (a b : ℚ)
    (rest : List Command) (fk : List KnobMap) (saved : List (String × KnobMap))
    (h1 : ¬(s ≥ frames ∨ e ≥ frames)) (h2 : ¬ s > e) :
    second_pass_go frames (Command.varyKnob knob s e a b none :: rest) fk saved =
      second_pass_go frames rest
        (applyRamp knob none s a ((b - a) / (((e : ℕ) : ℚ) - ((s : ℕ) : ℚ)))
          (frameRange s e) fk) saved := by
  simp only [second_pass_go]
  rw [if_neg h1, if_neg h2]

theorem second_pass_go_tween_none (frames : ℕ) (s e : ℕ) (l0 l1 : String)
    (rest : List Command) (fk : List KnobMap) (saved : List (String × KnobMap))
    (knobs0 knobs1 : KnobMap)
    (h1 : ¬(s ≥ frames ∨ e ≥ frames)) (h2 : ¬ s > e)
    (hk0 : lookupA saved l0 = some knobs0) (hk1 : lookupA saved l1 = some knobs1) :
    second_pass_go frames (Command.tween s e l0 l1 none :: rest) fk saved =
      second_pass_go frames rest
        (((knobs0.map (fun kv => kv.1)) ++
          ((knobs1.map (fun kv => kv.1)).filter
            (fun k2 => ¬ (knobs0.map (fun kv => kv.1)).contains k2))).foldl
          (fun ms knob =>
            applyRamp knob none s ((lookupA knobs0 knob).getD 0)
              (((lookupA knobs1 knob).getD 0 - (lookupA knobs0 knob).getD 0) /
                (((e : ℕ) : ℚ) - ((s : ℕ) : ℚ)))
              (frameRange s e) ms) fk)
        saved := by
  simp only [second_pass_go]
  rw [if_neg h1, if_neg h2, hk0, hk1]

/-- The saved-knob-list scenario behind C5: save an empty snapshot "B", put
the knob into frame 0 with a vary ramp, save snapshot "A" (= the frame-0 map),
then tween from "A" to "B". -/
def tweenScenario (k : String) (v : ℚ) (s e : ℕ) : List Command :=
  [Command.saveKnobList "B", Command.varyKnob k 0 1 v v none,
   Command.saveKnobList "A", Command.tween s e "A" "B" none]

/-- Evaluation of the tween scenario: `second_pass` resolves it to a single
ramp for the unioned knob set {k} = keys(A) ∪ keys(B), from A's value toward
the missing side's default 0. -/
theorem c5_run (k : String) (v : ℚ) (s e n : ℕ) (hse : s ≤ e) (hen : e < n)
    (h1n : 1 < n) :
    ∃ maps, second_pass (tweenScenario k v s e) n = .ok maps ∧
      maps = applyRamp k none s
        (rampValue none 0 v ((v - v) / (((1 : ℕ) : ℚ) - ((0 : ℕ) : ℚ))) 0)
        ((0 - rampValue none 0 v ((v - v) / (((1 : ℕ) : ℚ) - ((0 : ℕ) : ℚ))) 0) /
          (((e : ℕ) : ℚ) - ((s : ℕ) : ℚ)))
        (frameRange s e)
        (applyRamp k none 0 v ((v - v) / (((1 : ℕ) : ℚ) - ((0 : ℕ) : ℚ)))
          (frameRange 0 1) (List.replicate n [])) := by
  have hshape : List.replicate n ([] : KnobMap) = [] :: List.replicate (n - 1) [] :=
    replicate_cons_of_pos n (by omega)
  set d1 : ℚ := (v - v) / (((1 : ℕ) : ℚ) - ((0 : ℕ) : ℚ)) with hd1
  set v0 : ℚ := rampValue none 0 v d1 0 with hv0
  set A : List KnobMap :=
    applyRamp k none 0 v d1 (frameRange 0 1) (List.replicate n []) with hA
  have hAlen : A.length = n := by
    rw [hA, applyRamp_length]
    simp
  obtain ⟨m0, tl, hcons⟩ : ∃ m0 tl, A = m0 :: tl := by
    cases hc : A with
    | nil => rw [hc] at hAlen; simp at hAlen; omega
    | cons m0 tl => exact ⟨m0, tl, rfl⟩
  have hm0 : m0 = insertA k v0 [] := by
    have h0 : A.get? 0 = some m0 := by rw [hcons]; rfl
    have h1 : A.get? 0 =
        (((List.replicate n ([] : KnobMap)).get? 0).map (insertA k (rampValue none 0 v d1 0))) := by
      rw [hA]
      exact applyRamp_get?_mem k none 0 v d1 (frameRange 0 1) _ 0 (nodup_frameRange 0 1)
        ((mem_frameRange 0 1 0).2 (by omega))
    rw [h0, get?_replicate_nil, if_pos (by omega)] at h1
    simpa [← hv0] using h1
  refine ⟨_, ?_, rfl⟩
  rw [second_pass, tweenScenario, hshape, second_pass_go_save,
    second_pass_go_vary_none n k 0 1 v v _ _ _ (by omega) (by omega), ← hd1, ← hshape, ← hA,
    hcons, second_pass_go_save,
    second_pass_go_tween_none n s e "A" "B" _ _ _ m0 [] (by omega) (by omega)
      (lookupA_insertA_self _ _ _)
      (by rw [lookupA_insertA_other _ _ _ _ (by simp), lookupA_insertA_self]),
    second_pass_go_nil]
  rw [hm0]
  simp only [insertA, removeKey, List.map_cons, List.map_nil, List.filter_nil,
    List.append_nil, List.foldl_cons, List.foldl_nil, lookupA_insertA_self]
  simp [lookupA]

/-- C5, counterexample: the tween `tween 0 0 A B` (start frame = end frame =
0) passes validation, with snapshot A = {k ↦ 1} and B = {}.  The claim says
the resolved value at the end frame equals the missing side's 0; but the
interpolation divides by `end_frame − start_frame = 0`, and the stored value
at frame 0 is A's value 1 in this exact-arithmetic model (`NaN` in IEEE f32) —
under either semantics it is not 0. -/
theorem c5_counterexample :
    (second_pass (tweenScenario "k" 1 0 0) 2).map (fun maps => frameKnob maps 0 "k")
      = .ok (some 1) ∧ (1 : ℚ) ≠ 0 := by
  obtain ⟨maps, hrun, hmaps⟩ := c5_run "k" 1 0 0 2 (by omega) (by omega) (by omega)
  constructor
  · rw [hrun]
    simp only [Except.map]
    rw [hmaps, frameKnob_applyRamp_self _ _ _ _ _ _ _ _ (nodup_frameRange 0 0)
      ((mem_frameRange 0 0 0).2 (by omega)) (by rw [applyRamp_length]; simp)]
    norm_num [rampValue]
  · norm_num

/-- A ramp leaves every frame outside its written range unchanged. -/
theorem frameKnob_applyRamp_frame_notMem (knob : String) (ez : Option CubicBezierEasing)
    (s : ℕ) (a delta : ℚ) (fs : List ℕ) (maps : List KnobMap) (f : ℕ) (j : String)
    (hf : f ∉ fs) :
    frameKnob (applyRamp knob ez s a delta fs maps) f j = frameKnob maps f j := by
  rw [frameKnob, frameKnob, applyRamp_get?_notMem _ _ _ _ _ _ _ _ hf]

/-- A key that `lookupA` resolves is among the list's keys. -/
theorem mem_keys_of_lookupA {κ α : Type} [DecidableEq κ] (l : List (κ × α)) (k : κ) (v : α)
    (h : lookupA l k = some v) : k ∈ l.map (fun kv => kv.1) := by
  induction l with
  | nil => cases h
  | cons kv rest ih =>
    rcases kv with ⟨k0, v0⟩
    rw [lookupA] at h
    by_cases he : k0 = k
    · rw [List.map_cons]
      exact List.mem_cons.2 (Or.inl he.symm)
    · rw [if_neg he] at h
      exact List.mem_cons_of_mem _ (ih h)

/-- Membership in the tween arm's unioned key list (A's keys followed by B's
keys not already in A) is membership in A's keys or in B's. -/
theorem mem_tween_keys (A B : KnobMap) (j : String) :
    (j ∈ A.map (fun kv => kv.1) ++
      (B.map (fun kv => kv.1)).filter
        (fun k2 => ¬ (A.map (fun kv => kv.1)).contains k2)) ↔
      j ∈ A.map (fun kv => kv.1) ∨ j ∈ B.map (fun kv => kv.1) := by
  constructor
  · intro h
    rcases List.mem_append.1 h with h0 | h1
    · exact Or.inl h0
    · exact Or.inr (List.mem_filter.1 h1).1
  · intro h
    by_cases h0 : j ∈ A.map (fun kv => kv.1)
    · exact List.mem_append.2 (Or.inl h0)
    · rcases h with h | h1
      · exact absurd h h0
      · refine List.mem_append.2 (Or.inr (List.mem_filter.2 ⟨h1, ?_⟩))
        simpa using h0

/-- The resolved value after the tween arm's fold of per-knob ramps: a knob in
the folded key list gets its interpolated value on every frame of the range;
everything else — other knobs, and frames outside the range — keeps the value
it had before the fold. -/
theorem frameKnob_tweenFold (s e : ℕ) (A B : KnobMap) (ks : List String)
    (ms : List KnobMap) (f : ℕ) (hf : f < ms.length) (j : String) :
    frameKnob (ks.foldl (fun ms2 knob =>
        applyRamp knob none s ((lookupA A knob).getD 0)
          (((lookupA B knob).getD 0 - (lookupA A knob).getD 0) /
            (((e : ℕ) : ℚ) - ((s : ℕ) : ℚ)))
          (frameRange s e) ms2) ms) f j =
      if j ∈ ks ∧ f ∈ frameRange s e
      then some (rampValue none s ((lookupA A j).getD 0)
        (((lookupA B j).getD 0 - (lookupA A j).getD 0) /
          (((e : ℕ) : ℚ) - ((s : ℕ) : ℚ))) f)
      else frameKnob ms f j := by
  induction ks generalizing ms with
  | nil => simp
  | cons k ks ih =>
    rw [List.foldl_cons, ih _ (by rw [applyRamp_length]; exact hf)]
    by_cases hmem : f ∈ frameRange s e
    · by_cases hjks : j ∈ ks
      · rw [if_pos ⟨hjks, hmem⟩, if_pos ⟨List.mem_cons_of_mem k hjks, hmem⟩]
      · rw [if_neg (fun hc => hjks hc.1)]
        by_cases hjk : j = k
        · subst hjk
          rw [if_pos ⟨List.mem_cons_self j ks, hmem⟩]
          exact frameKnob_applyRamp_self j none s _ _ (frameRange s e) ms f
            (nodup_frameRange s e) hmem hf
        · rw [if_neg (fun hc => hjk ((List.mem_cons.1 hc.1).resolve_right hjks))]
          exact frameKnob_applyRamp_other k none s _ _ (frameRange s e) ms f j hjk
    · rw [if_neg (fun hc => hmem hc.2), if_neg (fun hc => hmem hc.2)]
      exact frameKnob_applyRamp_frame_notMem k none s _ _ (frameRange s e) ms f j hmem

/-- C5 (amended): for every tween directive with `start_frame < end_frame`
(strictly — at `start_frame = end_frame`, which also passes validation, the
interpolation divides by zero, see the counterexample) over any two previously
saved knob lists A and B, the knob set resolved on every tweened frame is
exactly the union of A's and B's knob names; every such knob resolves to
`a + (b − a)·(f − s)/(e − s)` with a and b the knob's values in A and B, a
side missing the knob contributing 0; in particular a knob present only in A
with value v resolves to v at the start frame and to 0 at the end frame. -/
theorem c5_tween_union_values (frames s e : ℕ) (l0 l1 : String) (A B : KnobMap)
    (saved : List (String × KnobMap)) (hse : s < e) (hen : e < frames)
    (h0 : lookupA saved l0 = some A) (h1 : lookupA saved l1 = some B) :
    ∃ maps, second_pass_go frames [Command.tween s e l0 l1 none]
        (List.replicate frames []) saved = Except.ok maps ∧
      (∀ f, s ≤ f → f ≤ e → ∀ j,
        (frameKnob maps f j).isSome = true ↔
          (j ∈ A.map (fun kv => kv.1) ∨ j ∈ B.map (fun kv => kv.1))) ∧
      (∀ f, s ≤ f → f ≤ e → ∀ j,
        j ∈ A.map (fun kv => kv.1) ∨ j ∈ B.map (fun kv => kv.1) →
        frameKnob maps f j = some ((lookupA A j).getD 0 +
          ((lookupA B j).getD 0 - (lookupA A j).getD 0) *
            ((f : ℚ) - (s : ℚ)) / ((e : ℚ) - (s : ℚ)))) ∧
      (∀ j v, lookupA A j = some v → lookupA B j = none →
        frameKnob maps s j = some v ∧ frameKnob maps e j = some 0) := by
  have hes : ((e : ℚ) - (s : ℚ)) ≠ 0 := by
    have hlt : (s : ℚ) < (e : ℚ) := by exact_mod_cast hse
    exact sub_ne_zero.2 (ne_of_gt hlt)
  have hrw := second_pass_go_tween_none frames s e l0 l1 [] (List.replicate frames [])
    saved A B (by omega) (by omega) h0 h1
  rw [second_pass_go_nil] at hrw
  refine ⟨_, hrw, ?_, ?_, ?_⟩
  · intro f hsf hfe j
    have hfr : f ∈ frameRange s e := (mem_frameRange s e f).2 ⟨hsf, by omega⟩
    have hm := frameKnob_tweenFold s e A B
        (A.map (fun kv => kv.1) ++
          (B.map (fun kv => kv.1)).filter
            (fun k2 => ¬ (A.map (fun kv => kv.1)).contains k2))
        (List.replicate frames []) f
      (by simp only [List.length_replicate]; omega) j
    rw [hm]
    by_cases hjk : j ∈ A.map (fun kv => kv.1) ++
        (B.map (fun kv => kv.1)).filter
          (fun k2 => ¬ (A.map (fun kv => kv.1)).contains k2)
    · rw [if_pos ⟨hjk, hfr⟩]
      exact iff_of_true rfl ((mem_tween_keys A B j).1 hjk)
    · rw [if_neg (fun hc => hjk hc.1), frameKnob_replicate]
      have hnk : ¬ (j ∈ A.map (fun kv => kv.1) ∨ j ∈ B.map (fun kv => kv.1)) :=
        fun hk => hjk ((mem_tween_keys A B j).2 hk)
      exact iff_of_false (by simp) hnk
  · intro f hsf hfe j hj
    have hfr : f ∈ frameRange s e := (mem_frameRange s e f).2 ⟨hsf, by omega⟩
    have hm := frameKnob_tweenFold s e A B
        (A.map (fun kv => kv.1) ++
          (B.map (fun kv => kv.1)).filter
            (fun k2 => ¬ (A.map (fun kv => kv.1)).contains k2))
        (List.replicate frames []) f
      (by simp only [List.length_replicate]; omega) j
    rw [hm, if_pos ⟨(mem_tween_keys A B j).2 hj, hfr⟩]
    simp only [rampValue, Option.some.injEq]
    ring
  · intro j v hA hB
    have hj : j ∈ A.map (fun kv => kv.1) := mem_keys_of_lookupA A j v hA
    constructor
    · have hm := frameKnob_tweenFold s e A B
        (A.map (fun kv => kv.1) ++
          (B.map (fun kv => kv.1)).filter
            (fun k2 => ¬ (A.map (fun kv => kv.1)).contains k2))
        (List.replicate frames []) s
        (by simp only [List.length_replicate]; omega) j
      rw [hm, if_pos ⟨(mem_tween_keys A B j).2 (Or.inl hj),
        (mem_frameRange s e s).2 ⟨le_refl s, by omega⟩⟩]
      simp only [rampValue, hA, hB, Option.getD_some, Option.getD_none, Option.some.injEq]
      ring
    · have hm := frameKnob_tweenFold s e A B
        (A.map (fun kv => kv.1) ++
          (B.map (fun kv => kv.1)).filter
            (fun k2 => ¬ (A.map (fun kv => kv.1)).contains k2))
        (List.replicate frames []) e
        (by simp only [List.length_replicate]; omega) j
      rw [hm, if_pos ⟨(mem_tween_keys A B j).2 (Or.inl hj),
        (mem_frameRange s e e).2 ⟨le_of_lt hse, by omega⟩⟩]
      simp only [rampValue, hA, hB, Option.getD_some, Option.getD_none, Option.some.injEq]
      rw [div_mul_cancel₀ _ hes]
      ring

/-- C5 witness: the amended theorem applied to the saved lists A = {k ↦ 5} and
B = {j ↦ 7}, tween range 1..2 over 3 frames. -/
theorem c5_tween_union_values_witness :
    ∃ maps, second_pass_go 3 [Command.tween 1 2 "A" "B" none]
        (List.replicate 3 []) [("A", [("k", (5 : ℚ))]), ("B", [("j", (7 : ℚ))])]
        = Except.ok maps ∧
      (∀ f, 1 ≤ f → f ≤ 2 → ∀ j2,
        (frameKnob maps f j2).isSome = true ↔
          (j2 ∈ ([("k", (5 : ℚ))] : KnobMap).map (fun kv => kv.1) ∨
           j2 ∈ ([("j", (7 : ℚ))] : KnobMap).map (fun kv => kv.1))) ∧
      (∀ f, 1 ≤ f → f ≤ 2 → ∀ j2,
        j2 ∈ ([("k", (5 : ℚ))] : KnobMap).map (fun kv => kv.1) ∨
          j2 ∈ ([("j", (7 : ℚ))] : KnobMap).map (fun kv => kv.1) →
        frameKnob maps f j2 = some ((lookupA [("k", (5 : ℚ))] j2).getD 0 +
          ((lookupA [("j", (7 : ℚ))] j2).getD 0 - (lookupA [("k", (5 : ℚ))] j2).getD 0) *
            ((f : ℚ) - ((1 : ℕ) : ℚ)) / (((2 : ℕ) : ℚ) - ((1 : ℕ) : ℚ)))) ∧
      (∀ j2 v, lookupA [("k", (5 : ℚ))] j2 = some v →
        lookupA [("j", (7 : ℚ))] j2 = none →
        frameKnob maps 1 j2 = some v ∧ frameKnob maps 2 j2 = some 0) :=
  c5_tween_union_values 3 1 2 "A" "B" [("k", (5 : ℚ))] [("j", (7 : ℚ))]
    [("A", [("k", (5 : ℚ))]), ("B", [("j", (7 : ℚ))])]
    (by omega) (by omega) (by simp [lookupA]) (by simp [lookupA])

theorem ratSqrt_of_sq (r : ℚ) (hr : 0 ≤ r) : ratSqrt (r * r) = r := by
  rw [ratSqrt, Rat.sqrt_eq, abs_of_nonneg hr]

/-- Evaluate `normalize_vector` at a vector whose squared magnitude is a
perfect rational square. -/
theorem normalize_vector_eval (v : Vec3) (r : ℚ) (hr : 0 ≤ r) (h : normSq v = r * r) :
    normalize_vector v = ⟨v.x / r, v.y / r, v.z / r⟩ := by
  simp only [normalize_vector]
  rw [h, ratSqrt_of_sq r hr]

/-- Follows the specification's words, for comparison with the code's
pre-pass: for a vertex key, accumulate the un-normalized face normals of every
triangle in the buffer sharing that (quantized) position, then normalize the
sum once. -/
def claimedVertexNormal (m : List Point4) (key : ℤ × ℤ × ℤ) : Vec3 :=
  normalize_vector ((chunks3 m).foldl
    (fun acc t =>
      if vector_to_key t.1 = key ∨ vector_to_key t.2.1 = key ∨ vector_to_key t.2.2 = key
      then add_vectors acc (faceNormal t) else acc)
    ⟨0, 0, 0⟩)

/-- Two triangles sharing (after quantization) all three vertex keys: the
first with face normal (0, 0, 2), the second — its third vertex displaced by
z = 3/8, which still rounds to the same welding key — with face normal
(3/4, 0, −2). -/
def c2Buffer : List Point4 :=
  [⟨0, 0, 0, 1⟩, ⟨1, 0, 0, 1⟩, ⟨0, 2, 0, 1⟩,
   ⟨0, 0, 0, 1⟩, ⟨0, 2, 0, 1⟩, ⟨1, 0, 3/8, 1⟩]

/-- C2 (code bug): the pre-pass normalizes the accumulated vertex normals
inside the per-triangle loop instead of once after it (the source's own
comment says "sum up all the vectors and then normalize it at the end").  On
`c2Buffer` the map entry for key (0,0,0) is
normalize(normalize(n1) + n2) = (3/5, 0, −4/5), whereas the claimed
normalize(n1 + n2) is (1, 0, 0). -/
theorem c2_prepass_normalizes_inside_loop :
    lookupA (vertex_normals c2Buffer) ((0 : ℤ), (0 : ℤ), (0 : ℤ))
      = some ⟨3/5, 0, -4/5⟩ ∧
    claimedVertexNormal c2Buffer ((0 : ℤ), (0 : ℤ), (0 : ℤ)) = ⟨1, 0, 0⟩ ∧
    (⟨3/5, 0, -4/5⟩ : Vec3) ≠ (⟨1, 0, 0⟩ : Vec3) := by
  have hch : chunks3 c2Buffer =
      [(⟨0, 0, 0, 1⟩, ⟨1, 0, 0, 1⟩, ⟨0, 2, 0, 1⟩),
       (⟨0, 0, 0, 1⟩, ⟨0, 2, 0, 1⟩, ⟨1, 0, 3/8, 1⟩)] := rfl
  have hk0 : vector_to_key ⟨0, 0, 0, 1⟩ = ((0 : ℤ), (0 : ℤ), (0 : ℤ)) := by
    norm_num [vector_to_key, roundAway]
  have hk1 : vector_to_key ⟨1, 0, 0, 1⟩ = ((1 : ℤ), (0 : ℤ), (0 : ℤ)) := by
    norm_num [vector_to_key, roundAway]
  have hk2 : vector_to_key ⟨0, 2, 0, 1⟩ = ((0 : ℤ), (2 : ℤ), (0 : ℤ)) := by
    norm_num [vector_to_key, roundAway]
  have hk3 : vector_to_key ⟨1, 0, 3/8, 1⟩ = ((1 : ℤ), (0 : ℤ), (0 : ℤ)) := by
    norm_num [vector_to_key, roundAway]
  have hn1 : faceNormal (⟨0, 0, 0, 1⟩, ⟨1, 0, 0, 1⟩, ⟨0, 2, 0, 1⟩) = ⟨0, 0, 2⟩ := by
    norm_num [faceNormal, cross_product]
  have hn2 : faceNormal (⟨0, 0, 0, 1⟩, ⟨0, 2, 0, 1⟩, ⟨1, 0, 3/8, 1⟩) = ⟨3/4, 0, -2⟩ := by
    norm_num [faceNormal, cross_product]
  have e1 : normalize_vector ⟨0, 0, 2⟩ = ⟨0, 0, 1⟩ := by
    rw [normalize_vector_eval _ 2 (by norm_num) (by norm_num [normSq])]
    norm_num
  have e2 : normalize_vector ⟨3/4, 0, -1⟩ = ⟨3/5, 0, -4/5⟩ := by
    rw [normalize_vector_eval _ (5/4) (by norm_num) (by norm_num [normSq])]
    norm_num
  have e3 : normalize_vector ⟨3/4, 0, 0⟩ = ⟨1, 0, 0⟩ := by
    rw [normalize_vector_eval _ (3/4) (by norm_num) (by norm_num [normSq])]
    norm_num
  refine ⟨?_, ?_, ?_⟩
  · rw [vertex_normals, hch]
    simp only [List.foldl_cons, List.foldl_nil, hk0, hk1, hk2, hk3, hn1, hn2]
    norm_num [entryAdd, add_vectors, e1, e2, lookupA]
  · rw [claimedVertexNormal, hch]
    simp only [List.foldl_cons, List.foldl_nil, hk0, hk1, hk2, hk3, hn1, hn2]
    norm_num [add_vectors, e3]
  · intro h
    rw [Vec3.mk.injEq] at h
    norm_num at h

theorem foldl_append_eq_bind {α β : Type} (l : List α) (f : α → List β) (init : List β) :
    l.foldl (fun acc x => acc ++ f x) init = init ++ l.flatMap f := by
  induction l generalizing init with
  | nil => simp
  | cons x rest ih => simp [List.foldl_cons, ih]

/-- C7 (confirmed): with the back-face-culling flag enabled, the events of
`render_polygons` are exactly the concatenation of each triangle's events, and
a triangle whose face normal has negative z-component contributes no event at
all — no pixel is plotted and no line is drawn for it — under every shading
mode. -/
theorem c7_culled_triangle_emits_nothing (m : List Point4) (color : ℕ × ℕ × ℕ)
    (shading : ShadingMode) (config : LightingConfig) (constants : ReflectionConstants) :
    (render_polygons m color shading config constants
      = (chunks3 m).flatMap
          (triangleEvents ENABLE_BACK_FACE_CULLING shading (prePass shading m) color config
            constants)) ∧
    (∀ (vns : List ((ℤ × ℤ × ℤ) × Vec3)) (t : Tri), (faceNormal t).z < 0 →
      triangleEvents true shading vns color config constants t = []) := by
  constructor
  · rw [render_polygons]
    exact foldl_append_eq_bind _ _ []
  · intro vns t ht
    simp only [triangleEvents]
    rw [if_neg]
    intro hc
    exact absurd hc.1 (by linarith)

/-- C7 witness: a triangle wound so that its face normal is (0, 0, −1) emits
no events under flat shading with culling on. -/
theorem c7_culled_triangle_emits_nothing_witness :
    (render_polygons [⟨0, 0, 0, 1⟩, ⟨0, 1, 0, 1⟩, ⟨1, 0, 0, 1⟩] DEFAULT_FOREGROUND_COLOR
        ShadingMode.flat ⟨⟨50, 50, 50⟩, []⟩ DEFAULT_REFLECTION_CONSTANTS
      = (chunks3 [⟨0, 0, 0, 1⟩, ⟨0, 1, 0, 1⟩, ⟨1, 0, 0, 1⟩]).flatMap
          (triangleEvents ENABLE_BACK_FACE_CULLING ShadingMode.flat
            (prePass ShadingMode.flat [⟨0, 0, 0, 1⟩, ⟨0, 1, 0, 1⟩, ⟨1, 0, 0, 1⟩])
            DEFAULT_FOREGROUND_COLOR ⟨⟨50, 50, 50⟩, []⟩ DEFAULT_REFLECTION_CONSTANTS)) ∧
    triangleEvents true ShadingMode.flat []
        DEFAULT_FOREGROUND_COLOR ⟨⟨50, 50, 50⟩, []⟩ DEFAULT_REFLECTION_CONSTANTS
        (⟨0, 0, 0, 1⟩, ⟨0, 1, 0, 1⟩, ⟨1, 0, 0, 1⟩) = [] :=
  ⟨(c7_culled_triangle_emits_nothing _ _ _ _ _).1,
   (c7_culled_triangle_emits_nothing [] DEFAULT_FOREGROUND_COLOR ShadingMode.flat
      ⟨⟨50, 50, 50⟩, []⟩ DEFAULT_REFLECTION_CONSTANTS).2 []
      (⟨0, 0, 0, 1⟩, ⟨0, 1, 0, 1⟩, ⟨1, 0, 0, 1⟩)
      (by norm_num [faceNormal, cross_product])⟩

/-- Per-channel sum over the point lights, as the claim writes it. -/
def sumChan (point_lights : List (Vec3 × Vec3)) (f : Vec3 × Vec3 → ℚ) : ℚ :=
  (point_lights.map f).sum

theorem accumLights_eq (point_lights : List (Vec3 × Vec3)) (term : Vec3 × Vec3 → Vec3) :
    accumLights point_lights term =
      ⟨sumChan point_lights (fun l => (term l).x),
       sumChan point_lights (fun l => (term l).y),
       sumChan point_lights (fun l => (term l).z)⟩ := by
  have aux : ∀ (ls : List (Vec3 × Vec3)) (init : Vec3),
      ls.foldl (fun acc l => add_vectors acc (term l)) init =
        ⟨init.x + sumChan ls (fun l => (term l).x),
         init.y + sumChan ls (fun l => (term l).y),
         init.z + sumChan ls (fun l => (term l).z)⟩ := by
    intro ls
    induction ls with
    | nil => intro init; simp [sumChan]
    | cons l rest ih =>
      intro init
      rw [List.foldl_cons, ih]
      simp only [add_vectors, sumChan, List.map_cons, List.sum_cons, Vec3.mk.injEq]
      refine ⟨by ring, by ring, by ring⟩
  rw [accumLights, aux]
  simp

/-- The formula C8 claims for `get_illumination`, with the raw dot product
`N·L` inside the specular reflection term. -/
def claimedIllumination (n : Vec3) (config : LightingConfig)
    (constants : ReflectionConstants) : ℕ × ℕ × ℕ :=
  clamp_color
    ⟨config.ambient_light_color.x * constants.ambient.x
      + sumChan config.point_lights
          (fun l => l.1.x * constants.diffuse.x * max 0 (dot_product n l.2))
      + sumChan config.point_lights
          (fun l => l.1.x * constants.specular.x *
            (max 0 (2 * n.z * dot_product n l.2 - l.2.z)) ^ SPECULAR_EXPONENT),
     config.ambient_light_color.y * constants.ambient.y
      + sumChan config.point_lights
          (fun l => l.1.y * constants.diffuse.y * max 0 (dot_product n l.2))
      + sumChan config.point_lights
          (fun l => l.1.y * constants.specular.y *
            (max 0 (2 * n.z * dot_product n l.2 - l.2.z)) ^ SPECULAR_EXPONENT),
     config.ambient_light_color.z * constants.ambient.z
      + sumChan config.point_lights
          (fun l => l.1.z * constants.diffuse.z * max 0 (dot_product n l.2))
      + sumChan config.point_lights
          (fun l => l.1.z * constants.specular.z *
            (max 0 (2 * n.z * dot_product n l.2 - l.2.z)) ^ SPECULAR_EXPONENT)⟩

/-- The lighting configuration of the C8 counterexample: no ambient light and
one white light shining along −z. -/
def c8Config : LightingConfig :=
  ⟨⟨0, 0, 0⟩, [(⟨255, 255, 255⟩, ⟨0, 0, -1⟩)]⟩

/-- The reflection constants of the C8 counterexample: no diffuse reflection,
full specular reflection. -/
def c8Constants : ReflectionConstants :=
  ⟨⟨0, 0, 0⟩, ⟨0, 0, 0⟩, ⟨1, 1, 1⟩⟩

/-- C8, counterexample: for the unit normal (0, 0, 1) and a light along
(0, 0, −1), the code clamps `N·L` to 0 before forming the reflected z
(`2·N_z·max(0, N·L) − L_z = 1`), producing full specular output (255, 255,
255); the claim's raw-dot formula gives `max(0, 2·N_z·(N·L) − L_z) = max(0,
−1) = 0`, i.e. (0, 0, 0). -/
theorem c8_counterexample :
    get_illumination ⟨0, 0, 1⟩ c8Config c8Constants = (255, 255, 255) ∧
    claimedIllumination ⟨0, 0, 1⟩ c8Config c8Constants = (0, 0, 0) ∧
    ((255, 255, 255) : ℕ × ℕ × ℕ) ≠ ((0, 0, 0) : ℕ × ℕ × ℕ) := by
  have hn : normalize_vector ⟨0, 0, 1⟩ = (⟨0, 0, 1⟩ : Vec3) := by
    rw [normalize_vector_eval _ 1 (by norm_num) (by norm_num [normSq])]
    norm_num
  refine ⟨?_, ?_, by decide⟩
  · rw [get_illumination, hn]
    norm_num [get_ambient, get_diffuse, get_specular, accumLights, add_vectors,
      dot_product, clamp_color, ratTrunc, max_def, SPECULAR_EXPONENT, c8Config, c8Constants]
    decide
  · norm_num [claimedIllumination, sumChan, dot_product, clamp_color, ratTrunc, max_def,
      SPECULAR_EXPONENT, c8Config, c8Constants]

/-- The corrected per-channel formula: as the claim, but with `N·L` clamped to
0 before it enters the specular reflection term, as the code computes it. -/
def amendedIllumination (n : Vec3) (config : LightingConfig)
    (constants : ReflectionConstants) : ℕ × ℕ × ℕ :=
  clamp_color
    ⟨config.ambient_light_color.x * constants.ambient.x
      + sumChan config.point_lights
          (fun l => l.1.x * constants.diffuse.x * max 0 (dot_product n l.2))
      + sumChan config.point_lights
          (fun l => l.1.x * constants.specular.x *
            (max 0 (2 * n.z * max 0 (dot_product n l.2) - l.2.z)) ^ SPECULAR_EXPONENT),
     config.ambient_light_color.y * constants.ambient.y
      + sumChan config.point_lights
          (fun l => l.1.y * constants.diffuse.y * max 0 (dot_product n l.2))
      + sumChan config.point_lights
          (fun l => l.1.y * constants.specular.y *
            (max 0 (2 * n.z * max 0 (dot_product n l.2) - l.2.z)) ^ SPECULAR_EXPONENT),
     config.ambient_light_color.z * constants.ambient.z
      + sumChan config.point_lights
          (fun l => l.1.z * constants.diffuse.z * max 0 (dot_product n l.2))
      + sumChan config.point_lights
          (fun l => l.1.z * constants.specular.z *
            (max 0 (2 * n.z * max 0 (dot_product n l.2) - l.2.z)) ^ SPECULAR_EXPONENT)⟩

/-- C8 (amended): for every unit normal N, lighting configuration and
reflection constants, `get_illumination` returns, per channel,
`clamp(A·Ka + Σ C·Kd·max(0, N·L) + Σ C·Ks·max(0, 2·N_z·max(0, N·L) −
L_z)^SPECULAR_EXPONENT, 0, 255)` (then cast to an integer by truncation) —
i.e. the claim's formula with the diffuse dot product clamped to 0 before the
specular reflected-z term as well. -/
theorem c8_illumination_formula (n : Vec3) (config : LightingConfig)
    (constants : ReflectionConstants) (h : normSq n = 1) :
    get_illumination n config constants = amendedIllumination n config constants := by
  have hn : normalize_vector n = n := by
    rw [normalize_vector_eval n 1 (by norm_num) (by rw [h]; norm_num)]
    simp
  rw [get_illumination]
  simp only [hn, get_ambient, get_diffuse, get_specular, accumLights_eq, amendedIllumination,
    sumChan]

/-- C8 witness: the amended theorem applied at N = (0, 0, 1) with the
counterexample's configuration. -/
theorem c8_illumination_formula_witness :
    get_illumination ⟨0, 0, 1⟩ c8Config c8Constants
      = amendedIllumination ⟨0, 0, 1⟩ c8Config c8Constants :=
  c8_illumination_formula ⟨0, 0, 1⟩ c8Config c8Constants (by norm_num [normSq])

theorem exists_cons3_of_length {α : Type} (l : List α) (h : 3 ≤ l.length) :
    ∃ a b c t, l = a :: b :: c :: t := by
  rcases l with _ | ⟨a, _ | ⟨b, _ | ⟨c, t⟩⟩⟩ <;> simp at h
  exact ⟨a, b, c, t, rfl⟩

/-- With an empty point-light list, the textured loop panics with the
out-of-bounds light index on its first triangle (the slice and material
lookups succeed first). -/
theorem texturedLoop_panic_empty_lights (polys : List Point4) (mtls : List (String × MTLq))
    (info : List (String × UV3)) (idx : ℕ) (hinfo : info ≠ [])
    (hwf : idx + 3 * info.length ≤ polys.length)
    (hmtl : ∀ pr ∈ info, (lookupA mtls pr.1).isSome = true) :
    (texturedLoop polys mtls [] info idx).2 = some Err.panicLightIndex := by
  cases info with
  | nil => exact absurd rfl hinfo
  | cons pr rest =>
    obtain ⟨a, b, c, t, hd⟩ := exists_cons3_of_length (polys.drop idx)
      (by rw [List.length_drop]; simp at hwf; omega)
    obtain ⟨mtl, hm⟩ := Option.isSome_iff_exists.1 (hmtl pr (List.mem_cons_self _ _))
    rcases pr with ⟨mtlName, uv⟩
    rw [texturedLoop, hd, hm]

/-- With at least one point light and well-formed inputs the textured loop
completes without a panic. -/
theorem texturedLoop_ok (polys : List Point4) (mtls : List (String × MTLq))
    (l0 : Vec3 × Vec3) (ls : List (Vec3 × Vec3)) (info : List (String × UV3)) (idx : ℕ)
    (hwf : idx + 3 * info.length ≤ polys.length)
    (hmtl : ∀ pr ∈ info, (lookupA mtls pr.1).isSome = true) :
    (texturedLoop polys mtls (l0 :: ls) info idx).2 = none := by
  induction info generalizing idx with
  | nil => rfl
  | cons pr rest ih =>
    obtain ⟨a, b, c, t, hd⟩ := exists_cons3_of_length (polys.drop idx)
      (by rw [List.length_drop]; simp at hwf; omega)
    obtain ⟨mtl, hm⟩ := Option.isSome_iff_exists.1 (hmtl pr (List.mem_cons_self _ _))
    rcases pr with ⟨mtlName, uv⟩
    rw [texturedLoop, hd, hm]
    have := ih (idx + 3) (by simp at hwf ⊢; omega)
      (fun pr2 h2 => hmtl pr2 (List.mem_cons_of_mem _ h2))
    rcases hT : texturedLoop polys mtls (l0 :: ls) rest (idx + 3) with ⟨evs, st⟩
    rw [hT] at this
    simpa using this

/-- C10 (confirmed): executing a mesh command that resolves to cached textured
geometry indexes `point_lights[0]` unconditionally: with an empty point-light
list it panics (out-of-bounds index) instead of returning an error, and with
at least one point light (and well-formed cached data) no error occurs. -/
theorem c10_textured_mesh_requires_point_light
    (recurEval : Ctx → List Command → Ctx × Option Err) (ext : ExternalFns)
    (ctx : Ctx) (anim : Bool) (constants : Option String) (fp : String)
    (polys : List Point4) (info : List (String × UV3)) (mtls : List (String × MTLq))
    (hcache : lookupA ctx.mesh_cache fp = some (CachedMesh.texture polys info mtls))
    (hpoly : polys ≠ []) (hinfo : info ≠ [])
    (hwf : 3 * info.length ≤ polys.length)
    (hmtl : ∀ pr ∈ info, (lookupA mtls pr.1).isSome = true) :
    (ctx.lighting_config.point_lights = [] →
      (execute_command recurEval ext (.mesh constants fp none) ctx anim).2
        = some Err.panicLightIndex) ∧
    (∀ l0 ls, ctx.lighting_config.point_lights = l0 :: ls →
      (execute_command recurEval ext (.mesh constants fp none) ctx anim).2 = none) := by
  have hexec : execute_command recurEval ext (.mesh constants fp none) ctx anim =
      render_textured_polygons_ctx { ctx with polygons := polys } info mtls none := by
    rw [execute_command]
    rw [hcache]
    simp only [hpoly, hinfo, ne_eq, not_false_eq_true, if_true]
  have hlen : ∀ (g : Point4 → Point4) (h : Point4 → Point4),
      ((polys.map g).map h).length = polys.length := by
    simp
  constructor
  · intro hl
    rw [hexec, render_textured_polygons_ctx]
    simp only [resolveCoordSystem]
    have hp := texturedLoop_panic_empty_lights
      (((polys.map (transformPoint (stackPeek ctx.coordinate_stack))).map
        (transformPoint ctx.camera_matrix))) mtls info 0 hinfo (by rw [hlen]; omega) hmtl
    rw [← hl] at hp
    rcases hT : texturedLoop
        ((polys.map (transformPoint (stackPeek ctx.coordinate_stack))).map
          (transformPoint ctx.camera_matrix)) mtls
        ctx.lighting_config.point_lights info 0 with ⟨evs, st⟩
    rw [hT] at hp
    simp at hp
    simp [hT, hp]
  · intro l0 ls hl
    rw [hexec, render_textured_polygons_ctx]
    simp only [resolveCoordSystem]
    have hp := texturedLoop_ok
      (((polys.map (transformPoint (stackPeek ctx.coordinate_stack))).map
        (transformPoint ctx.camera_matrix))) mtls l0 ls info 0 (by rw [hlen]; omega) hmtl
    rw [← hl] at hp
    rcases hT : texturedLoop
        ((polys.map (transformPoint (stackPeek ctx.coordinate_stack))).map
          (transformPoint ctx.camera_matrix)) mtls
        ctx.lighting_config.point_lights info 0 with ⟨evs, st⟩
    rw [hT] at hp
    simp at hp
    simp [hT, hp]

/-- The context of the C10 witness: the light list cleared, the cache holding
a one-triangle textured mesh. -/
def c10Ctx : Ctx :=
  { initial_context with
      mesh_cache := [("m", CachedMesh.texture
        [⟨0, 0, 0, 1⟩, ⟨1, 0, 0, 1⟩, ⟨0, 1, 0, 1⟩]
        [("mat", ((0, 0), (1, 0), (0, 1)))]
        [("mat", ⟨(1, 1, 1), [], 1, 1⟩)])]
      lighting_config := ⟨⟨50, 50, 50⟩, []⟩ }

/-- C10 witness: the theorem applied to a context whose light list was
cleared and whose cache holds a one-triangle textured mesh. -/
theorem c10_textured_mesh_requires_point_light_witness :
    (execute_command trivialRecur trivialExt (.mesh none "m" none) c10Ctx false).2
      = some Err.panicLightIndex :=
  (c10_textured_mesh_requires_point_light trivialRecur trivialExt c10Ctx false none "m"
    [⟨0, 0, 0, 1⟩, ⟨1, 0, 0, 1⟩, ⟨0, 1, 0, 1⟩]
    [("mat", ((0, 0), (1, 0), (0, 1)))]
    [("mat", ⟨(1, 1, 1), [], 1, 1⟩)]
    rfl (by simp) (by simp) (by simp) (by decide)).1 rfl

/-- Occurrence count in a list of strings. -/
def countOcc (p : String) : List String → ℕ
  | [] => 0
  | a :: rest => (if a = p then 1 else 0) + countOcc p rest

/-- The number of external mesh-loader invocations recorded for a path. -/
def countLoads (ctx : Ctx) (p : String) : ℕ :=
  countOcc p ctx.mesh_loads

/-- The cache entry built from one loader result — the untransformed loaded
geometry. -/
def toCached (g : MeshData) : CachedMesh :=
  match g.texinfo with
  | none => .noTexture g.polys
  | some (i, t) => .texture g.polys i t

/-- The C9 run invariant on a live (not-yet-failed) context: the loader ran at
most once for `p`; the polygon buffer is empty between commands; and either
`p` was never loaded and has no cache entry, or it was loaded exactly once and
the cache holds exactly the loader's untransformed geometry (non-empty by the
oracle hypothesis). -/
def Inv0 (ext : ExternalFns) (p : String) (ctx : Ctx) : Prop :=
  countLoads ctx p ≤ 1 ∧ ctx.polygons = [] ∧
  ((countLoads ctx p = 0 ∧ lookupA ctx.mesh_cache p = none) ∨
   (countLoads ctx p = 1 ∧ ∃ g, ext.meshOracle p = Except.ok g ∧
     lookupA ctx.mesh_cache p = some (toCached g) ∧ g.polys ≠ []))

/-- The C9 invariant on a step result: the load bound holds unconditionally,
and the full invariant holds when the step did not fail. -/
def InvR (ext : ExternalFns) (p : String) (r : Ctx × Option Err) : Prop :=
  countLoads r.1 p ≤ 1 ∧ (r.2 = none → Inv0 ext p r.1)

theorem render_polygons_ctx_fields (ctx : Ctx) (constants coord_system : Option String) :
    (render_polygons_ctx ctx constants coord_system).1.mesh_loads = ctx.mesh_loads ∧
    (render_polygons_ctx ctx constants coord_system).1.mesh_cache = ctx.mesh_cache ∧
    ((render_polygons_ctx ctx constants coord_system).2 = none →
      (render_polygons_ctx ctx constants coord_system).1.polygons = []) := by
  rw [render_polygons_ctx]
  rcases resolveConstants ctx constants with e | rc
  · simp
  · rcases resolveCoordSystem ctx coord_system with e | polys <;> simp

theorem render_textured_polygons_ctx_fields (ctx : Ctx) (info : List (String × UV3))
    (mtls : List (String × MTLq)) (coord_system : Option String) :
    (render_textured_polygons_ctx ctx info mtls coord_system).1.mesh_loads
      = ctx.mesh_loads ∧
    (render_textured_polygons_ctx ctx info mtls coord_system).1.mesh_cache
      = ctx.mesh_cache ∧
    ((render_textured_polygons_ctx ctx info mtls coord_system).2 = none →
      (render_textured_polygons_ctx ctx info mtls coord_system).1.polygons = []) := by
  rw [render_textured_polygons_ctx]
  rcases resolveCoordSystem ctx coord_system with e | polys
  · simp
  · rcases hT : texturedLoop (polys.map (transformPoint ctx.camera_matrix)) mtls
      ctx.lighting_config.point_lights info 0 with ⟨evs, st⟩
    cases st <;> simp [hT]

theorem countOcc_append (p : String) (l1 l2 : List String) :
    countOcc p (l1 ++ l2) = countOcc p l1 + countOcc p l2 := by
  induction l1 with
  | nil => simp [countOcc]
  | cons a rest ih => simp [countOcc, ih]; omega

theorem InvR_of_render_polygons (ext : ExternalFns) (p : String) (ctx' : Ctx)
    (constants coord_system : Option String)
    (h1 : countLoads ctx' p ≤ 1)
    (h3 : (countLoads ctx' p = 0 ∧ lookupA ctx'.mesh_cache p = none) ∨
      (countLoads ctx' p = 1 ∧ ∃ g, ext.meshOracle p = Except.ok g ∧
        lookupA ctx'.mesh_cache p = some (toCached g) ∧ g.polys ≠ [])) :
    InvR ext p (render_polygons_ctx ctx' constants coord_system) := by
  obtain ⟨hf1, hf2, hf3⟩ := render_polygons_ctx_fields ctx' constants coord_system
  refine ⟨?_, fun hst => ⟨?_, hf3 hst, ?_⟩⟩
  · simpa [countLoads, hf1] using h1
  · simpa [countLoads, hf1] using h1
  · simpa [countLoads, hf1, hf2] using h3

theorem InvR_of_render_textured (ext : ExternalFns) (p : String) (ctx' : Ctx)
    (info : List (String × UV3)) (mtls : List (String × MTLq))
    (coord_system : Option String)
    (h1 : countLoads ctx' p ≤ 1)
    (h3 : (countLoads ctx' p = 0 ∧ lookupA ctx'.mesh_cache p = none) ∨
      (countLoads ctx' p = 1 ∧ ∃ g, ext.meshOracle p = Except.ok g ∧
        lookupA ctx'.mesh_cache p = some (toCached g) ∧ g.polys ≠ [])) :
    InvR ext p (render_textured_polygons_ctx ctx' info mtls coord_system) := by
  obtain ⟨hf1, hf2, hf3⟩ := render_textured_polygons_ctx_fields ctx' info mtls coord_system
  refine ⟨?_, fun hst => ⟨?_, hf3 hst, ?_⟩⟩
  · simpa [countLoads, hf1] using h1
  · simpa [countLoads, hf1] using h1
  · simpa [countLoads, hf1, hf2] using h3

theorem InvR_insert_after_render (ext : ExternalFns) (p fp : String) (entry : CachedMesh)
    (r : Ctx × Option Err) (loads : List String) (cache : List (String × CachedMesh))
    (hf1 : r.1.mesh_loads = loads) (hf2 : r.1.mesh_cache = cache)
    (hf3 : r.2 = none → r.1.polygons = [])
    (hcnt : countOcc p loads ≤ 1)
    (hdisj2 : (countOcc p loads = 0 ∧ lookupA (insertA fp entry cache) p = none) ∨
      (countOcc p loads = 1 ∧ ∃ g, ext.meshOracle p = Except.ok g ∧
        lookupA (insertA fp entry cache) p = some (toCached g) ∧ g.polys ≠ [])) :
    InvR ext p (insert_after_render fp entry r) := by
  rcases r with ⟨ctx2, st⟩
  simp only at hf1 hf2 hf3
  cases st with
  | some e =>
    refine ⟨?_, fun hst => absurd hst (by simp [insert_after_render])⟩
    simpa [insert_after_render, countLoads, hf1] using hcnt
  | none =>
    refine ⟨?_, fun _ => ⟨?_, ?_, ?_⟩⟩
    · simpa [insert_after_render, countLoads, hf1] using hcnt
    · simpa [insert_after_render, countLoads, hf1] using hcnt
    · simpa [insert_after_render] using hf3 rfl
    · simpa [insert_after_render, countLoads, hf1, hf2] using hdisj2

theorem countOcc_self_singleton (p : String) : countOcc p [p] = 1 := by
  simp [countOcc]

theorem countOcc_other_singleton (p fp : String) (h : fp ≠ p) : countOcc p [fp] = 0 := by
  simp [countOcc, h]

/-- The load path preserves the C9 invariant, given that the path being loaded
is either not `p` or has never been loaded nor cached. -/
theorem mesh_load_path_inv (ext : ExternalFns) (p : String) (constants : Option String)
    (fp : String) (coord_system : Option String) (ctx : Ctx)
    (horacle : ∀ g, ext.meshOracle p = Except.ok g → g.polys ≠ [])
    (hc1 : countLoads ctx p ≤ 1) (hpoly0 : ctx.polygons = [])
    (hdisj : (countLoads ctx p = 0 ∧ lookupA ctx.mesh_cache p = none) ∨
      (countLoads ctx p = 1 ∧ ∃ g, ext.meshOracle p = Except.ok g ∧
        lookupA ctx.mesh_cache p = some (toCached g) ∧ g.polys ≠ []))
    (hself : fp = p → countLoads ctx p = 0 ∧ lookupA ctx.mesh_cache p = none) :
    InvR ext p (mesh_load_path ext constants fp coord_system ctx) := by
  rw [mesh_load_path]
  have hcnt : countOcc p (ctx.mesh_loads ++ [fp]) ≤ 1 := by
    rw [countOcc_append]
    by_cases hfp : fp = p
    · rw [hfp, countOcc_self_singleton]
      have := (hself hfp).1
      rw [countLoads] at this
      omega
    · rw [countOcc_other_singleton p fp hfp]
      rw [countLoads] at hc1
      omega
  rcases hor : ext.meshOracle fp with msg | g2
  · refine ⟨?_, fun hst => absurd hst (by simp)⟩
    simpa [countLoads] using hcnt
  · have hdisj2 : ∀ entry : CachedMesh, (fp = p → entry = toCached g2) →
        (countOcc p (ctx.mesh_loads ++ [fp]) = 0 ∧
          lookupA (insertA fp entry ctx.mesh_cache) p = none) ∨
        (countOcc p (ctx.mesh_loads ++ [fp]) = 1 ∧ ∃ g, ext.meshOracle p = Except.ok g ∧
          lookupA (insertA fp entry ctx.mesh_cache) p = some (toCached g) ∧
          g.polys ≠ []) := by
      intro entry hentry
      by_cases hfp : fp = p
      · subst hfp
        refine Or.inr ⟨?_, g2, hor, ?_, horacle g2 hor⟩
        · rw [countOcc_append, countOcc_self_singleton]
          have := (hself rfl).1
          rw [countLoads] at this
          omega
        · rw [lookupA_insertA_self, hentry rfl]
      · rcases hdisj with ⟨hz, hn⟩ | ⟨ho, g, hog, hsg, hgne⟩
        · refine Or.inl ⟨?_, ?_⟩
          · rw [countOcc_append, countOcc_other_singleton p fp hfp]
            rw [countLoads] at hz
            omega
          · rw [lookupA_insertA_other fp p entry ctx.mesh_cache (fun e => hfp e.symm), hn]
        · refine Or.inr ⟨?_, g, hog, ?_, hgne⟩
          · rw [countOcc_append, countOcc_other_singleton p fp hfp]
            rw [countLoads] at ho
            omega
          · rw [lookupA_insertA_other fp p entry ctx.mesh_cache (fun e => hfp e.symm), hsg]
    dsimp only
    rcases hti : g2.texinfo with _ | ⟨info, mtls⟩
    · dsimp only
      obtain ⟨hf1, hf2, hf3⟩ := render_polygons_ctx_fields
        { ctx with mesh_loads := ctx.mesh_loads ++ [fp], polygons := ctx.polygons ++ g2.polys }
        constants coord_system
      refine InvR_insert_after_render ext p fp _ _ (ctx.mesh_loads ++ [fp]) ctx.mesh_cache
        hf1 hf2 hf3 hcnt (hdisj2 _ ?_)
      intro hfp
      subst hfp
      rw [toCached, hti, hpoly0]
      simp
    · dsimp only
      obtain ⟨hf1, hf2, hf3⟩ := render_textured_polygons_ctx_fields
        { ctx with mesh_loads := ctx.mesh_loads ++ [fp], polygons := ctx.polygons ++ g2.polys }
        info mtls coord_system
      refine InvR_insert_after_render ext p fp _ _ (ctx.mesh_loads ++ [fp]) ctx.mesh_cache
        hf1 hf2 hf3 hcnt (hdisj2 _ ?_)
      intro hfp
      subst hfp
      rw [toCached, hti, hpoly0]
      simp

/-- The mesh arm preserves the C9 invariant. -/
theorem mesh_arm_inv (recurEval : Ctx → List Command → Ctx × Option Err)
    (ext : ExternalFns) (p : String)
    (horacle : ∀ g, ext.meshOracle p = Except.ok g → g.polys ≠ [])
    (constants : Option String) (fp : String) (coord_system : Option String)
    (ctx : Ctx) (anim : Bool) (h : Inv0 ext p ctx) :
    InvR ext p (execute_command recurEval ext (.mesh constants fp coord_system) ctx anim) := by
  obtain ⟨hc1, hpoly0, hdisj⟩ := h
  simp only [execute_command]
  rcases hL : lookupA ctx.mesh_cache fp with _ | centry
  · rw [if_neg (by simp)]
    refine mesh_load_path_inv ext p constants fp coord_system ctx horacle hc1 hpoly0 hdisj ?_
    intro hfp
    subst hfp
    rcases hdisj with ⟨hz, hn⟩ | ⟨_, g, _, hsg, _⟩
    · exact ⟨hz, hn⟩
    · rw [hL] at hsg
      cases hsg
  · cases centry with
    | noTexture m =>
      by_cases hm : m = []
      · subst hm
        rw [if_neg (by simp)]
        refine mesh_load_path_inv ext p constants fp coord_system ctx horacle hc1 hpoly0 hdisj ?_
        intro hfp
        subst hfp
        rcases hdisj with ⟨hz, hn⟩ | ⟨_, g, _, hsg, hgne⟩
        · rw [hL] at hn
          cases hn
        · rw [hL] at hsg
          have : toCached g = CachedMesh.noTexture [] := by
            injection hsg with e
            exact e.symm
          rw [toCached] at this
          rcases hti : g.texinfo with _ | pr
          · rw [hti] at this
            simp at this
            exact absurd this hgne
          · rw [hti] at this
            simp at this
      · rw [if_pos (by simpa using hm), if_neg (by simp)]
        exact InvR_of_render_polygons ext p _ _ _ hc1 hdisj
    | texture m info mtls =>
      by_cases hm : m = []
      · subst hm
        rw [if_neg (by simp)]
        refine mesh_load_path_inv ext p constants fp coord_system ctx horacle hc1 hpoly0 hdisj ?_
        intro hfp
        subst hfp
        rcases hdisj with ⟨hz, hn⟩ | ⟨_, g, _, hsg, hgne⟩
        · rw [hL] at hn
          cases hn
        · rw [hL] at hsg
          have : toCached g = CachedMesh.texture [] info mtls := by
            injection hsg with e
            exact e.symm
          rw [toCached] at this
          rcases hti : g.texinfo with _ | pr
          · rw [hti] at this
            simp at this
          · rw [hti] at this
            rcases pr with ⟨i2, t2⟩
            simp at this
            exact absurd this.1 hgne
      · rw [if_pos (by simpa using hm)]
        by_cases hi : info = []
        · rw [if_neg (by simpa using hi)]
          exact InvR_of_render_polygons ext p _ _ _ hc1 hdisj
        · rw [if_pos (by simpa using hi)]
          exact InvR_of_render_textured ext p _ _ _ _ hc1 hdisj

/-- One command preserves the C9 invariant (given that nested composite
evaluation does). -/
theorem execute_command_inv (recurEval : Ctx → List Command → Ctx × Option Err)
    (ext : ExternalFns) (p : String)
    (hrec : ∀ ctx cmds, Inv0 ext p ctx → InvR ext p (recurEval ctx cmds))
    (horacle : ∀ g, ext.meshOracle p = Except.ok g → g.polys ≠ [])
    (cmd : Command) (ctx : Ctx) (anim : Bool) (h : Inv0 ext p ctx) :
    InvR ext p (execute_command recurEval ext cmd ctx anim) := by
  obtain ⟨hc1, hpoly0, hdisj⟩ := h
  cases cmd with
  | display => cases anim <;> exact ⟨hc1, fun _ => ⟨hc1, hpoly0, hdisj⟩⟩
  | save fp => cases anim <;> exact ⟨hc1, fun _ => ⟨hc1, hpoly0, hdisj⟩⟩
  | clear => exact ⟨hc1, fun _ => ⟨hc1, hpoly0, hdisj⟩⟩
  | push => exact ⟨hc1, fun _ => ⟨hc1, hpoly0, hdisj⟩⟩
  | pop => exact ⟨hc1, fun _ => ⟨hc1, hpoly0, hdisj⟩⟩
  | move a b c knob => exact ⟨hc1, fun _ => ⟨hc1, hpoly0, hdisj⟩⟩
  | scale a b c knob => exact ⟨hc1, fun _ => ⟨hc1, hpoly0, hdisj⟩⟩
  | rotate axis degrees knob => exact ⟨hc1, fun _ => ⟨hc1, hpoly0, hdisj⟩⟩
  | line x0 y0 z0 x1 y1 z1 => exact ⟨hc1, fun _ => ⟨hc1, hpoly0, hdisj⟩⟩
  | circle x y z r => exact ⟨hc1, fun _ => ⟨hc1, hpoly0, hdisj⟩⟩
  | hermite x0 y0 x1 y1 rx0 ry0 rx1 ry1 => exact ⟨hc1, fun _ => ⟨hc1, hpoly0, hdisj⟩⟩
  | bezier x0 y0 x1 y1 x2 y2 x3 y3 => exact ⟨hc1, fun _ => ⟨hc1, hpoly0, hdisj⟩⟩
  | polygon constants x0 y0 z0 x1 y1 z1 x2 y2 z2 coord_system =>
    exact InvR_of_render_polygons ext p _ _ _ hc1 hdisj
  | box constants x y z w hh d coord_system =>
    exact InvR_of_render_polygons ext p _ _ _ hc1 hdisj
  | sphere constants x y z r coord_system =>
    exact InvR_of_render_polygons ext p _ _ _ hc1 hdisj
  | torus constants x y z r0 r1 coord_system =>
    exact InvR_of_render_polygons ext p _ _ _ hc1 hdisj
  | cylinder constants x y z r hh coord_system =>
    exact InvR_of_render_polygons ext p _ _ _ hc1 hdisj
  | cone constants x y z r hh coord_system =>
    exact InvR_of_render_polygons ext p _ _ _ hc1 hdisj
  | mesh constants fp coord_system =>
    exact mesh_arm_inv recurEval ext p horacle constants fp coord_system ctx anim
      ⟨hc1, hpoly0, hdisj⟩
  | clearLights => exact ⟨hc1, fun _ => ⟨hc1, hpoly0, hdisj⟩⟩
  | addLight r g b x y z => exact ⟨hc1, fun _ => ⟨hc1, hpoly0, hdisj⟩⟩
  | setAmbient r g b => exact ⟨hc1, fun _ => ⟨hc1, hpoly0, hdisj⟩⟩
  | defineConstants name kar kdr ksr kag kdg ksg kab kdb ksb =>
    exact ⟨hc1, fun _ => ⟨hc1, hpoly0, hdisj⟩⟩
  | setShading mode => exact ⟨hc1, fun _ => ⟨hc1, hpoly0, hdisj⟩⟩
  | setCamera ex ey ez ax ay az => exact ⟨hc1, fun _ => ⟨hc1, hpoly0, hdisj⟩⟩
  | setBaseName name => exact ⟨hc1, fun _ => ⟨hc1, hpoly0, hdisj⟩⟩
  | setKnob name value => exact ⟨hc1, fun _ => ⟨hc1, hpoly0, hdisj⟩⟩
  | saveKnobList name => exact ⟨hc1, fun _ => ⟨hc1, hpoly0, hdisj⟩⟩
  | tween s e l0 l1 easing => exact ⟨hc1, fun _ => ⟨hc1, hpoly0, hdisj⟩⟩
  | setFrames n => exact ⟨hc1, fun _ => ⟨hc1, hpoly0, hdisj⟩⟩
  | varyKnob knob s e a b easing => exact ⟨hc1, fun _ => ⟨hc1, hpoly0, hdisj⟩⟩
  | setAllKnobs value => exact ⟨hc1, fun _ => ⟨hc1, hpoly0, hdisj⟩⟩
  | saveCoordSystem name => exact ⟨hc1, fun _ => ⟨hc1, hpoly0, hdisj⟩⟩
  | createComposite name commands => exact ⟨hc1, fun _ => ⟨hc1, hpoly0, hdisj⟩⟩
  | runComposite name =>
    simp only [execute_command]
    rcases lookupA ctx.symbols name with _ | sym
    · exact ⟨hc1, fun hst => absurd hst (by simp)⟩
    · cases sym with
      | compositeCommand commands => exact hrec ctx commands ⟨hc1, hpoly0, hdisj⟩
      | constants c => exact ⟨hc1, fun hst => absurd hst (by simp)⟩
      | knob v => exact ⟨hc1, fun hst => absurd hst (by simp)⟩
      | coordSystem m => exact ⟨hc1, fun hst => absurd hst (by simp)⟩
  | generateRayFiles => exact ⟨hc1, fun _ => ⟨hc1, hpoly0, hdisj⟩⟩
  | setFocalLength length => exact ⟨hc1, fun _ => ⟨hc1, hpoly0, hdisj⟩⟩

theorem execList_inv (execOne : Command → Ctx → Ctx × Option Err) (ext : ExternalFns)
    (p : String) (hone : ∀ c ctx, Inv0 ext p ctx → InvR ext p (execOne c ctx))
    (cmds : List Command) (ctx : Ctx) (h : Inv0 ext p ctx) :
    InvR ext p (execListWith execOne cmds ctx) := by
  induction cmds generalizing ctx with
  | nil => exact ⟨h.1, fun _ => h⟩
  | cons c rest ih =>
    rw [execListWith]
    have hinv := hone c ctx h
    rcases hr : execOne c ctx with ⟨ctx2, st⟩
    rw [hr] at hinv
    cases st with
    | none => exact ih ctx2 (hinv.2 rfl)
    | some e => exact ⟨hinv.1, fun hst => absurd hst (by simp)⟩

theorem Inv0_frame_reset (ext : ExternalFns) (p : String) (ctx : Ctx)
    (h : Inv0 ext p ctx) : Inv0 ext p (frame_reset ctx) :=
  ⟨h.1, rfl, h.2.2⟩

theorem Inv0_set_knob (ext : ExternalFns) (p : String) (name : String) (value : ℚ)
    (ctx : Ctx) (h : Inv0 ext p ctx) : Inv0 ext p (set_knob name value ctx) :=
  ⟨h.1, h.2.1, h.2.2⟩

theorem Inv0_set_knob_fold (ext : ExternalFns) (p : String) (knobs : KnobMap)
    (ctx : Ctx) (h : Inv0 ext p ctx) :
    Inv0 ext p (knobs.foldl (fun c kv => set_knob kv.1 kv.2 c) ctx) := by
  induction knobs generalizing ctx with
  | nil => exact h
  | cons kv rest ih =>
    exact ih (set_knob kv.1 kv.2 ctx) (Inv0_set_knob ext p kv.1 kv.2 ctx h)

theorem runFrames_inv (execOne : Command → Ctx → Ctx × Option Err) (ext : ExternalFns)
    (p : String) (hone : ∀ c ctx, Inv0 ext p ctx → InvR ext p (execOne c ctx))
    (cmds : List Command) (frames : List KnobMap) (ctx : Ctx) (h : Inv0 ext p ctx) :
    InvR ext p (runFramesWith execOne cmds frames ctx) := by
  induction frames generalizing ctx with
  | nil => exact ⟨h.1, fun _ => h⟩
  | cons knobs rest ih =>
    rw [runFramesWith]
    have h1 : Inv0 ext p
        (knobs.foldl (fun c kv => set_knob kv.1 kv.2 c) (frame_reset ctx)) :=
      Inv0_set_knob_fold ext p knobs (frame_reset ctx) (Inv0_frame_reset ext p ctx h)
    have hinv := execList_inv execOne ext p hone cmds _ h1
    rcases hr : execListWith execOne cmds
        (knobs.foldl (fun c kv => set_knob kv.1 kv.2 c) (frame_reset ctx)) with ⟨ctx2, st⟩
    rw [hr] at hinv
    rw [hr]
    cases st with
    | none => exact ih ctx2 (hinv.2 rfl)
    | some e => exact ⟨hinv.1, fun hst => absurd hst (by simp)⟩

theorem evalCommandsCore_inv (recurEval : Ctx → List Command → Ctx × Option Err)
    (ext : ExternalFns) (p : String)
    (hrec : ∀ ctx cmds, Inv0 ext p ctx → InvR ext p (recurEval ctx cmds))
    (horacle : ∀ g, ext.meshOracle p = Except.ok g → g.polys ≠ [])
    (ctx : Ctx) (cmds : List Command) (h : Inv0 ext p ctx) :
    InvR ext p (evalCommandsCore recurEval ext ctx cmds) := by
  rw [evalCommandsCore]
  rcases first_pass cmds with msg | ⟨nf, bn⟩
  · exact ⟨h.1, fun hst => absurd hst (by simp)⟩
  · dsimp only
    by_cases hnf : nf = 0
    · rw [if_pos hnf]
      exact execList_inv _ ext p
        (fun c ctx h => execute_command_inv recurEval ext p hrec horacle c ctx false h)
        cmds ctx h
    · rw [if_neg hnf]
      rcases second_pass cmds nf with msg | fkl
      · exact ⟨h.1, fun hst => absurd hst (by simp)⟩
      · exact runFrames_inv _ ext p
          (fun c ctx h => execute_command_inv recurEval ext p hrec horacle c ctx true h)
          cmds fkl ctx h

theorem evaluate_commands_inv (ext : ExternalFns) (p : String)
    (horacle : ∀ g, ext.meshOracle p = Except.ok g → g.polys ≠ [])
    (fuel : ℕ) (ctx : Ctx) (cmds : List Command) (h : Inv0 ext p ctx) :
    InvR ext p (evaluate_commands ext fuel ctx cmds) := by
  induction fuel generalizing ctx cmds with
  | zero =>
    rw [evaluate_commands]
    exact ⟨h.1, fun hst => absurd hst (by simp)⟩
  | succ fuel ih =>
    rw [evaluate_commands]
    exact evalCommandsCore_inv (evaluate_commands ext fuel) ext p
      (fun ctx cmds h => ih ctx cmds h) horacle ctx cmds h

theorem Inv0_initial_context (ext : ExternalFns) (p : String) :
    Inv0 ext p initial_context :=
  ⟨Nat.le_succ 0, rfl, Or.inl ⟨rfl, rfl⟩⟩

/-- An external-function instance whose mesh loader always returns one
untextured triangle. -/
def oneTriExt : ExternalFns :=
  { trivialExt with
    meshOracle := fun _ =>
      .ok ⟨[⟨0, 0, 0, 1⟩, ⟨1, 0, 0, 1⟩, ⟨0, 1, 0, 1⟩], none⟩ }

/-- An external-function instance whose mesh loader succeeds with empty
geometry (e.g. an .obj file with no face lines). -/
def emptyMeshExt : ExternalFns :=
  { trivialExt with meshOracle := fun _ => .ok ⟨[], none⟩ }

/-- C9 counterexample to the unamended claim: when the loader succeeds with
EMPTY geometry, the cached entry is an empty polygon list, so the replay
branch's `!polygons.is_empty()` guard fails and a second `mesh` command for
the same path invokes the external loader again — two loads in one run. -/
theorem c9_counterexample :
    countLoads
      (evaluate_commands emptyMeshExt 1 initial_context
        [.mesh none "m" none, .mesh none "m" none]).1 "m" = 2 := by
  rfl

/-- C9 (amended): for every script run and every mesh file path `p`, provided
the loader returns NON-EMPTY geometry for `p`, the external mesh loader is
invoked at most once for `p` over the whole run — the first `mesh` command
caches the loaded, untransformed geometry and every later `mesh` command for
`p` (including in later animation frames, since `frame_reset` keeps the
cache) replays the cached copy without calling the loader.  The non-emptiness
proviso is needed: the replay branch is guarded by `!polygons.is_empty()`, so
an empty cached entry is reloaded every time (see the counterexample). -/
theorem c9_mesh_loaded_at_most_once (ext : ExternalFns) (p : String)
    (horacle : ∀ g, ext.meshOracle p = Except.ok g → g.polys ≠ [])
    (fuel : ℕ) (cmds : List Command) :
    countLoads (evaluate_commands ext fuel initial_context cmds).1 p ≤ 1 :=
  (evaluate_commands_inv ext p horacle fuel initial_context cmds
    (Inv0_initial_context ext p)).1

/-- C9 witness: with a loader producing one triangle, a script issuing the
same `mesh` command twice performs at most one (in fact exactly one) load. -/
theorem c9_mesh_loaded_at_most_once_witness :
    countLoads
      (evaluate_commands oneTriExt 2 initial_context
        [.mesh none "m" none, .mesh none "m" none]).1 "m" ≤ 1 :=
  c9_mesh_loaded_at_most_once oneTriExt "m"
    (fun g hg => by
      injection hg with e
      rw [← e]
      simp [oneTriExt, trivialExt])
    2 [.mesh none "m" none, .mesh none "m" none]
